import Mathlib

/-!
# Digital bank back end: balance operations, login throttle and list queries

A shallow embedding of

* `src/api/components/digitalBank/digitalBank-repository.js`
* `src/api/components/digitalBank/digitalBank-service.js`
* `src/api/components/digitalBank/digitalBank-controller.js`
* `src/api/components/authentication/authentication-controller.js`
* `src/api/components/users/users-service.js` (the list functions)

The `bankUser` collection is a list of documents.  `findById` and `findOne`
return the first matching document, `updateOne` rewrites the first matching
document and `deleteOne` removes it.  Every mutating repository call is also
appended to a call log, so that "no write was issued" can be stated.

Balances and amounts are exact integers (think of the smallest currency
unit) and sums and differences are exact: rounding of JavaScript doubles is
outside the model.  The hashing
helpers of `utils/password` are not part of the sources and are taken as
parameters, as is the identifier the store assigns to a new document.
Repository calls are taken to complete: a rejected promise (the store being
unreachable) is not modelled, so the `catch` branches of the service are
never entered.  In the login handler the outcome of `checkLoginCredentials`
(`authentication-service`, not part of the sources) is an input.
-/

namespace DigitalBank

/-- A document of the `bankUser` collection. -/
structure Account where
  id : String
  ownerName : String
  accountNumber : String
  bank : String
  balance : Int
  password : String
deriving DecidableEq

/-- The mutating calls offered by `digitalBank-repository.js`. -/
inductive RepoCall where
  | createBankAccount (ownerName accountNumber bank : String) (balance : Int)
      (password : String)
  | updateBankAccount (id ownerName accountNumber : String)
  | balance (id : String) (total : Int)
  | deleteBankAccount (id : String)
  | changePassword (id password : String)
deriving DecidableEq

/-- The collection, with the log of mutating repository calls issued so far
(most recent last). -/
structure Db where
  docs : List Account
  calls : List RepoCall
deriving DecidableEq

/-- The object `updateOne` resolves to. -/
structure UpdateResult where
  matchedCount : Nat
  modifiedCount : Nat
deriving DecidableEq

/-- An object is truthy in JavaScript, whatever its fields hold. -/
def UpdateResult.truthy (_r : UpdateResult) : Bool := true

/-- The values the service functions return: `true`, `false` or `null`. -/
inductive Flag where
  | jsTrue
  | jsFalse
  | jsNull
deriving DecidableEq

/-- JavaScript truthiness of a returned flag. -/
def Flag.truthy : Flag → Bool
  | .jsTrue => true
  | .jsFalse => false
  | .jsNull => false

/-- Mongo `updateOne`: apply `f` to the first document satisfying `p`. -/
def updateOne (p : Account → Bool) (f : Account → Account) :
    List Account → List Account
  | [] => []
  | a :: rest => if p a then f a :: rest else a :: updateOne p f rest

/-- The hashing helpers of `utils/password`. -/
structure PasswordUtil where
  hashPassword : String → String
  passwordMatched : String → String → Bool

/-- Sum of all balances held in the collection. -/
def totalBalance (db : Db) : Int := (db.docs.map (fun a => a.balance)).sum

namespace Repository

/-- Repository `getBankAccount`: `bankUser.findById(id)`. -/
def getBankAccount (db : Db) (id : String) : Option Account :=
  db.docs.find? (fun a => a.id == id)

/-- Repository `getBankAccountByAccountNumber`: `bankUser.findOne({ accountNumber })`. -/
def getBankAccountByAccountNumber (db : Db) (accountNumber : String) :
    Option Account :=
  db.docs.find? (fun a => a.accountNumber == accountNumber)

/-- Repository `createBankAccount`: `bankUser.create({...})`; `newId` is the
identifier the store assigns. -/
def createBankAccount (db : Db) (newId ownerName accountNumber bank : String)
    (balance : Int) (password : String) : Db :=
  { docs := db.docs ++ [⟨newId, ownerName, accountNumber, bank, balance, password⟩],
    calls := db.calls ++ [.createBankAccount ownerName accountNumber bank balance password] }

/-- The result object of an `updateOne` filtered by `_id`. -/
def updateResult (db : Db) (id : String) : UpdateResult :=
  if db.docs.any (fun a => a.id == id) then ⟨1, 1⟩ else ⟨0, 0⟩

/-- Repository `updateBankAccount`: `$set` of `ownerName` and `accountNumber`. -/
def updateBankAccount (db : Db) (id ownerName accountNumber : String) :
    UpdateResult × Db :=
  (updateResult db id,
   { docs := updateOne (fun a => a.id == id)
              (fun a => { a with ownerName := ownerName, accountNumber := accountNumber })
              db.docs,
     calls := db.calls ++ [.updateBankAccount id ownerName accountNumber] })

/-- Repository `balance`: `$set` of `balance` to `total`. -/
def balance (db : Db) (id : String) (total : Int) : UpdateResult × Db :=
  (updateResult db id,
   { docs := updateOne (fun a => a.id == id) (fun a => { a with balance := total })
              db.docs,
     calls := db.calls ++ [.balance id total] })

/-- Repository `deleteBankAccount`: `bankUser.deleteOne({ _id: id })`. -/
def deleteBankAccount (db : Db) (id : String) : Db :=
  { docs := db.docs.eraseP (fun a => a.id == id),
    calls := db.calls ++ [.deleteBankAccount id] }

/-- Repository `changePassword`: `$set` of `password`. -/
def changePassword (db : Db) (id password : String) : UpdateResult × Db :=
  (updateResult db id,
   { docs := updateOne (fun a => a.id == id) (fun a => { a with password := password })
              db.docs,
     calls := db.calls ++ [.changePassword id password] })

end Repository

/-- The projection returned by the service's `getBankAccount`. -/
structure AccountView where
  id : String
  owner_name : String
  accountNumber : String
  balance : Int
deriving DecidableEq

namespace Service

/-- Service `getBankAccount` (lines 114-128): the projected account, or `null`. -/
def getBankAccount (db : Db) (id : String) : Option AccountView :=
  match Repository.getBankAccount db id with
  | none => none
  | some account =>
    some ⟨account.id, account.ownerName, account.accountNumber, account.balance⟩

/-- Service `createBankAccount` (lines 180-191). -/
def createBankAccount (pw : PasswordUtil) (db : Db)
    (newId ownerName accountNumber bank : String) (balance : Int)
    (password : String) : Flag × Db :=
  let hashedPassword := pw.hashPassword password
  (.jsTrue,
   Repository.createBankAccount db newId ownerName accountNumber bank balance hashedPassword)

/-- Service `updateBankAccount` (lines 200-215). -/
def updateBankAccount (db : Db) (id name accountNumber _password : String) :
    Flag × Db :=
  match Repository.getBankAccount db id with
  | none => (.jsNull, db)
  | some _account =>
    (.jsTrue, (Repository.updateBankAccount db id name accountNumber).2)

/-- Service `deleteBankAccount` (lines 222-237). -/
def deleteBankAccount (db : Db) (id : String) : Flag × Db :=
  match Repository.getBankAccount db id with
  | none => (.jsNull, db)
  | some _bankAccount => (.jsTrue, Repository.deleteBankAccount db id)

/-- Service `accountNumberIsRegistered` (lines 244-252). -/
def accountNumberIsRegistered (db : Db) (accountNumber : String) : Bool :=
  match Repository.getBankAccountByAccountNumber db accountNumber with
  | some _bankAccount => true
  | none => false

/-- Service `checkPassword` (lines 260-263).  `none` stands for the
`TypeError` raised by `bankAccount.password` when no account has the id. -/
def checkPassword (pw : PasswordUtil) (db : Db) (bankAccountId password : String) :
    Option Bool :=
  match Repository.getBankAccount db bankAccountId with
  | none => none
  | some bankAccount => some (pw.passwordMatched password bankAccount.password)

/-- Service `changePassword` (lines 271-291). -/
def changePassword (pw : PasswordUtil) (db : Db) (bankAccountId password : String) :
    Flag × Db :=
  match Repository.getBankAccount db bankAccountId with
  | none => (.jsNull, db)
  | some _bankAccount =>
    let hashedPassword := pw.hashPassword password
    let r := Repository.changePassword db bankAccountId hashedPassword
    if !r.1.truthy then (.jsNull, r.2) else (.jsTrue, r.2)

/-- Service `deposit` (lines 299-316). -/
def deposit (db : Db) (id : String) (amount : Int) : Flag × Db :=
  match Repository.getBankAccount db id with
  | none => (.jsNull, db)
  | some account =>
    let total := account.balance + amount
    let r := Repository.balance db id total
    if !r.1.truthy then (.jsNull, r.2) else (.jsTrue, r.2)

/-- Service `payment` (lines 324-346). -/
def payment (db : Db) (id : String) (amount : Int) : Flag × Db :=
  match Repository.getBankAccount db id with
  | none => (.jsNull, db)
  | some account =>
    if account.balance < amount then (.jsNull, db)
    else
      let total := account.balance - amount
      let r := Repository.balance db id total
      if !r.1.truthy then (.jsNull, r.2) else (.jsTrue, r.2)

/-- Service `transferBalance` (lines 355-391).  The two documents are fetched
by two separate queries, both before any write; the writes go to the source
first and to the target second. -/
def transferBalance (db : Db) (id id2 : String) (amount : Int) : Flag × Db :=
  match Repository.getBankAccount db id with
  | none => (.jsFalse, db)
  | some sourceAccount =>
    match Repository.getBankAccount db id2 with
    | none => (.jsFalse, db)
    | some targetAccount =>
      if sourceAccount.balance < amount then (.jsFalse, db)
      else
        let total := sourceAccount.balance - amount
        let total2 := targetAccount.balance + amount
        let r1 := Repository.balance db id total
        let r2 := Repository.balance r1.2 id2 total2
        if !r1.1.truthy then (.jsNull, r2.2)
        else if !r2.1.truthy then (.jsNull, r2.2)
        else (.jsTrue, r2.2)

end Service

/-- The error kinds raised through `errorResponder`, and `TYPE_ERROR` for a
JavaScript `TypeError` caught by the handler's `try` block. -/
inductive ErrorType where
  | INVALID_PASSWORD
  | ACCOUNT_NUMBER_ALREADY_TAKEN
  | INVALID_CREDENTIALS
  | UNPROCESSABLE_ENTITY
  | FORBIDDEN
  | TYPE_ERROR
deriving DecidableEq

/-- What a handler hands back: a 200 response (with its `message` field, empty
when the body has none) or an error passed to `next`. -/
inductive Response where
  | ok (message : String)
  | error (kind : ErrorType) (message : String)
deriving DecidableEq

/-- The error kind of a response, if it is an error. -/
def Response.errorKind : Response → Option ErrorType
  | .ok _ => none
  | .error k _ => some k

/-- Whether the handler answered with an error. -/
def Response.isError : Response → Bool
  | .ok _ => false
  | .error _ _ => true

namespace Controller

/-- Handler `createBankAccount` (controller lines 101-144). -/
def createBankAccount (pw : PasswordUtil) (db : Db)
    (newId name accountNumber bank : String) (deposit : Int)
    (password password_confirm : String) : Response × Db :=
  if password != password_confirm then
    (.error .INVALID_PASSWORD "Password confirmation mismatched", db)
  else if Service.accountNumberIsRegistered db accountNumber then
    (.error .ACCOUNT_NUMBER_ALREADY_TAKEN "Account Number is already registered", db)
  else
    let r := Service.createBankAccount pw db newId name accountNumber bank deposit password
    if !r.1.truthy then
      (.error .UNPROCESSABLE_ENTITY "Failed to create bank account", r.2)
    else (.ok "", r.2)

/-- Handler `updateBankAccount` (controller lines 153-195). -/
def updateBankAccount (pw : PasswordUtil) (db : Db)
    (id name accountNumber password : String) : Response × Db :=
  if Service.accountNumberIsRegistered db accountNumber then
    (.error .ACCOUNT_NUMBER_ALREADY_TAKEN "Account number is already registered", db)
  else
    match Service.checkPassword pw db id password with
    | none => (.error .TYPE_ERROR "Cannot read properties of null", db)
    | some false => (.error .INVALID_CREDENTIALS "Wrong password", db)
    | some true =>
      let r := Service.updateBankAccount db id name accountNumber password
      if !r.1.truthy then
        (.error .UNPROCESSABLE_ENTITY "Failed to update Bank Account", r.2)
      else (.ok "Account changed successfully", r.2)

/-- Handler `deleteBankAccount` (controller lines 204-236). -/
def deleteBankAccount (pw : PasswordUtil) (db : Db) (id password : String) :
    Response × Db :=
  match Service.checkPassword pw db id password with
  | none => (.error .TYPE_ERROR "Cannot read properties of null", db)
  | some false => (.error .INVALID_CREDENTIALS "Wrong password", db)
  | some true =>
    let account := Service.getBankAccount db id
    let r := Service.deleteBankAccount db id
    if !r.1.truthy then
      (.error .UNPROCESSABLE_ENTITY "Failed to delete Bank Account", r.2)
    else
      match account with
      | none => (.error .TYPE_ERROR "Cannot read properties of null", r.2)
      | some _account => (.ok "Account deleted successfully", r.2)

/-- Handler `changePassword` (controller lines 245-283). -/
def changePassword (pw : PasswordUtil) (db : Db)
    (id password_old password_new password_confirm : String) : Response × Db :=
  if password_new != password_confirm then
    (.error .INVALID_PASSWORD "Password confirmation mismatched", db)
  else
    match Service.checkPassword pw db id password_old with
    | none => (.error .TYPE_ERROR "Cannot read properties of null", db)
    | some false => (.error .INVALID_CREDENTIALS "Wrong password", db)
    | some true =>
      let r := Service.changePassword pw db id password_new
      if !r.1.truthy then
        (.error .UNPROCESSABLE_ENTITY "Failed to change password", r.2)
      else (.ok "Password changed successfully", r.2)

/-- Handler `deposit` (controller lines 292-316). -/
def deposit (db : Db) (id : String) (amount : Int) : Response × Db :=
  let bankAccount := Service.getBankAccount db id
  let r := Service.deposit db id amount
  if !r.1.truthy then (.error .UNPROCESSABLE_ENTITY "Failed to deposit", r.2)
  else
    match bankAccount with
    | none => (.error .TYPE_ERROR "Cannot read properties of null", r.2)
    | some _bankAccount => (.ok "Deposit success", r.2)

/-- Handler `payment` (controller lines 325-367).  The service call is made
before the handler compares the balance read beforehand with the amount. -/
def payment (pw : PasswordUtil) (db : Db) (id : String) (amount : Int)
    (password : String) : Response × Db :=
  match Service.checkPassword pw db id password with
  | none => (.error .TYPE_ERROR "Cannot read properties of null", db)
  | some false => (.error .INVALID_CREDENTIALS "Wrong password", db)
  | some true =>
    let userAccount := Service.getBankAccount db id
    let r := Service.payment db id amount
    match userAccount with
    | none => (.error .TYPE_ERROR "Cannot read properties of null", r.2)
    | some userAccount =>
      if userAccount.balance < amount then
        (.error .UNPROCESSABLE_ENTITY "Balance not enough", r.2)
      else if !r.1.truthy then
        (.error .UNPROCESSABLE_ENTITY "Failed to payment", r.2)
      else (.ok "Payment success", r.2)

/-- Handler `transferBalance` (controller lines 369-412). -/
def transferBalance (pw : PasswordUtil) (db : Db) (id id2 : String) (amount : Int)
    (password : String) : Response × Db :=
  match Service.checkPassword pw db id password with
  | none => (.error .TYPE_ERROR "Cannot read properties of null", db)
  | some false => (.error .INVALID_CREDENTIALS "Wrong password", db)
  | some true =>
    let sourceAccount := Service.getBankAccount db id
    let targetAccount := Service.getBankAccount db id2
    let r := Service.transferBalance db id id2 amount
    match sourceAccount with
    | none => (.error .TYPE_ERROR "Cannot read properties of null", r.2)
    | some sourceAccount =>
      if sourceAccount.balance < amount then
        (.error .UNPROCESSABLE_ENTITY "Balance not enough", r.2)
      else if !r.1.truthy then
        (.error .UNPROCESSABLE_ENTITY "Failed to transfer balance", r.2)
      else
        match targetAccount with
        | none => (.error .TYPE_ERROR "Cannot read properties of null", r.2)
        | some _targetAccount => (.ok "transfer successfully", r.2)

end Controller

end DigitalBank

namespace Authentication

open DigitalBank (Response ErrorType)

/-- One entry of `failedLoginAttempts`. -/
structure LoginAttemptRecord where
  attempts : Nat
  lastAttempt : Int
deriving DecidableEq

/-- The module-level object `failedLoginAttempts`, keyed by e-mail: `none` is
a key under which no record is read (an absent key, or a property inherited
from `Object.prototype`, whose `attempts` and `lastAttempt` are `undefined`).
Under the key `__proto__` the record, if any, is the one installed as the
object's prototype. -/
abbrev FailedLoginAttempts := String → Option LoginAttemptRecord

/-- The empty object the module starts with. -/
def emptyAttempts : FailedLoginAttempts := fun _ => none

/-- The length of the lock, `30 * 60 * 1000` milliseconds. -/
def lockWindow : Int := 30 * 60 * 1000

/-- Ceiling of `x / d` for `d > 0`, as `Math.ceil` computes it. -/
def ceilDiv (x d : Int) : Int := -((-x) / d)

/-- The reading `failedLoginAttempts[email]?.lastAttempt || 0`. -/
def lastFailedAttempt (st : FailedLoginAttempts) (email : String) : Int :=
  match st email with
  | none => 0
  | some r => r.lastAttempt

/-- The reading `failedLoginAttempts[email]?.attempts || 0`. -/
def failedAttempt (st : FailedLoginAttempts) (email : String) : Nat :=
  match st email with
  | none => 0
  | some r => r.attempts

/-- The minutes reported to a locked-out caller (line 27). -/
def waitingTime (currentTime lastAttempt : Int) : Int :=
  ceilDiv (lockWindow - (currentTime - lastAttempt)) (60 * 1000)

/-- The statement `delete failedLoginAttempts[email]`.  The object is a plain
`{}`: for the key `__proto__` the entry read and written is the object's
prototype (the accessor inherited from `Object.prototype`), which is no own
property, so the `delete` removes nothing. -/
def deleteEntry (st : FailedLoginAttempts) (email : String) : FailedLoginAttempts :=
  if email = "__proto__" then st else Function.update st email none

/-- Handler `login` (authentication controller lines 12-53).  `loginSuccess` is
what `checkLoginCredentials` returned: `none` for a falsy value (credentials
rejected), `some token` for the login result. -/
def login (st : FailedLoginAttempts) (email : String) (currentTime : Int)
    (loginSuccess : Option String) : Response × FailedLoginAttempts :=
  if 5 ≤ failedAttempt st email ∧
      currentTime - lastFailedAttempt st email < lockWindow then
    (.error .FORBIDDEN
      ("Too many failed login attempts. Please try again in " ++
        toString (waitingTime currentTime (lastFailedAttempt st email)) ++ " minutes"),
     st)
  else
    match loginSuccess with
    | none =>
      (.error .INVALID_CREDENTIALS "Wrong email or password",
       Function.update st email
         (some ⟨failedAttempt st email + 1, currentTime⟩))
    | some token => (.ok token, deleteEntry st email)

end Authentication

namespace DigitalBank

/-- A collection holding one account, with balance 100. -/
def soloDb : Db :=
  ⟨[⟨"a1", "ALICE", "000000001", "ABC", 100, "h-alice"⟩], []⟩

/-- A collection holding two accounts, with balances 100 and 40. -/
def pairDb : Db :=
  ⟨[⟨"a1", "ALICE", "000000001", "ABC", 100, "h-alice"⟩,
    ⟨"b2", "BOB", "000000002", "ABC", 40, "h-bob"⟩], []⟩

/-- Hashing helpers for the examples: the hash of `s` is `h-` followed by `s`. -/
def demoPassword : PasswordUtil :=
  ⟨fun s => "h-" ++ s, fun s h => ("h-" ++ s) == h⟩

end DigitalBank

namespace Authentication

/-- One login request: the e-mail, the time `Date.now()` returned, and what
`checkLoginCredentials` returned for the submitted credentials. -/
structure Attempt where
  email : String
  time : Int
  loginSuccess : Option String
deriving DecidableEq, Repr

/-- The throttle state after serving the listed requests in order. -/
def runLogins (st : FailedLoginAttempts) : List Attempt → FailedLoginAttempts
  | [] => st
  | a :: rest => runLogins (login st a.email a.time a.loginSuccess).2 rest

/-- A state in which `u@mail.io` has five recorded failures, the last at time
`1000`. -/
def lockedAttempts : FailedLoginAttempts :=
  Function.update emptyAttempts "u@mail.io" (some ⟨5, 1000⟩)

/-- Five rejected requests for `u@mail.io`, with a request for another
identifier in between. -/
def fiveFailures : List Attempt :=
  [⟨"u@mail.io", 10, none⟩, ⟨"u@mail.io", 20, none⟩, ⟨"v@mail.io", 25, none⟩,
   ⟨"u@mail.io", 30, none⟩, ⟨"u@mail.io", 40, none⟩, ⟨"u@mail.io", 50, none⟩]

end Authentication

/-! ## Search, sort and paginate

The list functions of `users-service.js` and `digitalBank-service.js`.  A
string is compared and searched through its UTF-16 code units, as JavaScript
does; the strings are well formed (no lone surrogate), as are all strings read
back from the store.  The built-in `String.prototype.toLowerCase`, with its
Unicode case tables, is an input of the list functions (`toLowerCase`).
`Array.prototype.sort` is stable, and the comparators used here are
consistent, so its result is the one a stable insertion sort gives.
`usersRepository.getUsers()` is not part of the sources: the list of user
documents is an input.
-/

namespace Js

/-- What reading a property of a document yields. -/
inductive Value where
  | str (s : String)
  | num (n : Int)
  | undefined
deriving DecidableEq

/-- The UTF-16 code units of one character: itself below `0x10000`, a
surrogate pair otherwise. -/
def utf16Char (c : Char) : List Nat :=
  if c.toNat < 0x10000 then [c.toNat]
  else [0xD800 + (c.toNat - 0x10000) / 0x400, 0xDC00 + (c.toNat - 0x10000) % 0x400]

/-- The UTF-16 code units of a string. -/
def utf16 (s : String) : List Nat := (s.data.map utf16Char).flatten

/-- The operator `<` on two property values of one kind: two strings are
compared code unit by code unit; a comparison with `undefined` is false. -/
def lt : Value → Value → Bool
  | .str a, .str b => decide (utf16 a < utf16 b)
  | .num a, .num b => decide (a < b)
  | _, _ => false

/-- Splitting a list of characters at every colon. -/
def splitColon : List Char → List (List Char)
  | [] => [[]]
  | c :: cs =>
    if c = ':' then [] :: splitColon cs
    else
      match splitColon cs with
      | [] => [[c]]
      | h :: t => (c :: h) :: t

/-- The call `s.split(':')`. -/
def split (s : String) : List String := (splitColon s.data).map String.mk

/-- The first element of `s.split(':')`. -/
def firstPart (s : String) : String := (split s).headD ""

/-- The second element of `s.split(':')`, `none` for `undefined`. -/
def secondPart (s : String) : Option String := (split s)[1]?

/-- Lower-casing of the letters `A` to `Z`, which is what `toLowerCase` does
to a string of ASCII characters; used where the list functions are run on
ASCII examples. -/
def asciiLowerCase (s : String) : String := ⟨s.data.map Char.toLower⟩

/-- The method `includes`: the code units of `key` occur in `s` as a
contiguous run. -/
def includes (s key : String) : Bool := decide (utf16 key <:+: utf16 s)

/-- `Array.prototype.sort` with a comparator. -/
def sort {α : Type} (cmp : α → α → Int) (l : List α) : List α :=
  l.insertionSort (fun a b => cmp a b ≤ 0)

/-- `Math.ceil(x / d)` for whole numbers `x` and `d`, `d > 0`. -/
def ceilDiv (x d : Int) : Int := -((-x) / d)

/-- The filter step shared by the four list functions: `toLowerCase` is the
built-in method, `recognised` tells which field names select a property, `get`
reads it.  With a recognised field and no second part, `searchKey.toLowerCase()`
raises a `TypeError` in the first callback, which is the result `none`. -/
def filterBy {α : Type} (toLowerCase : String → String) (recognised : String → Bool)
    (get : α → String → String) (search : String) (l : List α) : Option (List α) :=
  let fieldName := firstPart search
  let searchKey := secondPart search
  if recognised fieldName then
    match searchKey with
    | none => if l.isEmpty then some [] else none
    | some key =>
      some (l.filter (fun x => includes (toLowerCase (get x fieldName)) (toLowerCase key)))
  else some (l.filter (fun _ => true))

/-- The comparator handed to `sort` by the four list functions. -/
def comparator {α : Type} (get : α → Value) (sortOrder : Option String) (a b : α) : Int :=
  if lt (get a) (get b) then
    (if sortOrder = some "asc" then -1 else 1)
  else if lt (get b) (get a) then
    (if sortOrder = some "asc" then 1 else -1)
  else 0

/-- The sort step shared by the four list functions. -/
def sortBy {α : Type} (prop : α → String → Value) (sortExpr : String) (l : List α) :
    List α :=
  let sortField := firstPart sortExpr
  let sortOrder := secondPart sortExpr
  sort (comparator (fun x => prop x sortField) sortOrder) l

/-- The body of `for (let i = start; i < stop; i += 1)` run `k` times from
index `i`: reading a missing element gives `undefined`, and reading a property
of it raises a `TypeError`, the result `none`. -/
def sliceLoop {α : Type} (l : List α) : Int → Nat → Option (List α)
  | _, 0 => some []
  | i, k + 1 =>
    if i < 0 then none
    else
      match l[i.toNat]? with
      | none => none
      | some x => (sliceLoop l (i + 1) k).map (fun rest => x :: rest)

/-- The pagination loop: from `(page_number - 1) * page_size` up to
`Math.min(nextUser + limits, length)`. -/
def paginate {α : Type} (l : List α) (page_number page_size : Int) : Option (List α) :=
  let nextUser := (page_number - 1) * page_size
  let limits := page_size
  sliceLoop l nextUser (min (nextUser + limits) (l.length : Int) - nextUser).toNat

/-- The object returned by `getUsers` and `getBankAccounts`. -/
structure Listing (ρ : Type) where
  results : List ρ
  totalPages : Int
  hasPreviousPages : Bool
  hasNextPages : Bool

/-- The metadata computed at lines 36-39, around all rows of the filtered list. -/
def listing {ρ : Type} (rows : List ρ) (page_number page_size : Int) : Listing ρ :=
  let totalPages := ceilDiv (rows.length : Int) page_size
  { results := rows,
    totalPages := totalPages,
    hasPreviousPages := decide (page_number > 1),
    hasNextPages := decide (page_number < totalPages) }

end Js

namespace Users

/-- A document of the users collection. -/
structure User where
  id : String
  name : String
  email : String
  password : String
deriving DecidableEq

/-- The object pushed to `results` for a user. -/
structure UserRow where
  id : String
  name : String
  email : String
deriving DecidableEq

/-- The projection `{ id, name, email }`. -/
def row (user : User) : UserRow := ⟨user.id, user.name, user.email⟩

/-- The test `fieldName === 'email' || fieldName === 'name'`. -/
def searchable (fieldName : String) : Bool := fieldName == "email" || fieldName == "name"

/-- The read `user[fieldName]` for a searchable field. -/
def searchField (user : User) (fieldName : String) : String :=
  if fieldName == "email" then user.email else user.name

/-- The read `a[sortField]`. -/
def prop (user : User) (sortField : String) : Js.Value :=
  if sortField == "id" then .str user.id
  else if sortField == "name" then .str user.name
  else if sortField == "email" then .str user.email
  else if sortField == "password" then .str user.password
  else .undefined

/-- The list `filteredUsers` after the filter and the sort (lines 15-34 and
70-89). -/
def filteredUsers (toLowerCase : String → String) (users : List User)
    (search sort : String) : Option (List User) :=
  (Js.filterBy toLowerCase searchable searchField search users).map (Js.sortBy prop sort)

/-- Service `getUsers` (lines 12-55). -/
def getUsers (toLowerCase : String → String) (users : List User)
    (page_number page_size : Int) (search sort : String) : Option (Js.Listing UserRow) :=
  (filteredUsers toLowerCase users search sort).map
    (fun filtered => Js.listing (filtered.map row) page_number page_size)

/-- Service `getUsersWithPagination` (lines 67-111). -/
def getUsersWithPagination (toLowerCase : String → String) (users : List User)
    (page_number page_size : Int) (search sort : String) : Option (List UserRow) :=
  match filteredUsers toLowerCase users search sort with
  | none => none
  | some filtered => (Js.paginate filtered page_number page_size).map (List.map row)

/-- Two users, stored in ascending order of e-mail. -/
def twoUsers : List User :=
  [⟨"u1", "ALI", "ali@mail.io", "h1"⟩, ⟨"u2", "BEA", "bea@mail.io", "h2"⟩]

/-- Five users. -/
def fiveUsers : List User :=
  [⟨"u1", "ALI", "ali@mail.io", "h1"⟩, ⟨"u2", "BEA", "bea@mail.io", "h2"⟩,
   ⟨"u3", "Salim", "sal@mail.io", "h3"⟩, ⟨"u4", "DAN", "dan@mail.io", "h4"⟩,
   ⟨"u5", "EVA", "eva@mail.io", "h5"⟩]

end Users

namespace DigitalBank

/-- The object pushed to `results` for an account. -/
structure AccountRow where
  id : String
  owner_name : String
  account_number : String
  balance : Int
deriving DecidableEq

/-- The projection `{ id, owner_name, account_number, balance }`. -/
def accountRow (account : Account) : AccountRow :=
  ⟨account.id, account.ownerName, account.accountNumber, account.balance⟩

/-- The test `fieldName === 'ownerName'`. -/
def searchable (fieldName : String) : Bool := fieldName == "ownerName"

/-- The read `account.ownerName` of the filter callback. -/
def searchField (account : Account) (_fieldName : String) : String := account.ownerName

/-- The read `a[sortField]`. -/
def prop (account : Account) (sortField : String) : Js.Value :=
  if sortField == "id" then .str account.id
  else if sortField == "ownerName" then .str account.ownerName
  else if sortField == "accountNumber" then .str account.accountNumber
  else if sortField == "bank" then .str account.bank
  else if sortField == "balance" then .num account.balance
  else if sortField == "password" then .str account.password
  else .undefined

namespace Repository

/-- Repository `getBankAccounts`: `bankUser.find({})`. -/
def getBankAccounts (db : Db) : List Account := db.docs

end Repository

namespace Service

/-- The list `filteredAccounts` after the filter and the sort (lines 15-34 and
70-89). -/
def filteredAccounts (toLowerCase : String → String) (db : Db) (search sort : String) :
    Option (List Account) :=
  (Js.filterBy toLowerCase searchable searchField search
      (Repository.getBankAccounts db)).map
    (Js.sortBy prop sort)

/-- Service `getBankAccounts` (lines 12-56). -/
def getBankAccounts (toLowerCase : String → String) (db : Db)
    (page_number page_size : Int) (search sort : String) :
    Option (Js.Listing AccountRow) :=
  (filteredAccounts toLowerCase db search sort).map
    (fun filtered => Js.listing (filtered.map accountRow) page_number page_size)

/-- Service `getBankAccountsWithPagination` (lines 67-107). -/
def getBankAccountsWithPagination (toLowerCase : String → String) (db : Db)
    (page_number page_size : Int) (search sort : String) : Option (List AccountRow) :=
  match filteredAccounts toLowerCase db search sort with
  | none => none
  | some filtered =>
    (Js.paginate filtered page_number page_size).map (List.map accountRow)

end Service

end DigitalBank

namespace Authentication

open DigitalBank (Response ErrorType)

/-- The times of the attempts for `e` that were answered "Wrong email or
password", that is, the failures the handler recorded, oldest first. -/
def recordedFailures (e : String) : FailedLoginAttempts → List Attempt → List Int
  | _, [] => []
  | st, a :: rest =>
    let r := login st a.email a.time a.loginSuccess
    if a.email = e ∧ r.1.errorKind = some .INVALID_CREDENTIALS then
      a.time :: recordedFailures e r.2 rest
    else recordedFailures e r.2 rest

/-- Five rejected requests for `u@mail.io`, one hour apart. -/
def hourlyFailures : List Attempt :=
  [⟨"u@mail.io", 0, none⟩, ⟨"u@mail.io", 3600000, none⟩, ⟨"u@mail.io", 7200000, none⟩,
   ⟨"u@mail.io", 10800000, none⟩, ⟨"u@mail.io", 14400000, none⟩]

end Authentication

namespace DigitalBank

/-- A collection holding five accounts. -/
def fiveDb : Db :=
  ⟨[⟨"a1", "ALICE", "000000001", "ABC", 100, "h-alice"⟩,
    ⟨"b2", "BOB", "000000002", "ABC", 40, "h-bob"⟩,
    ⟨"c3", "CAROL", "000000003", "ABC", 5, "h-carol"⟩,
    ⟨"d4", "DAVE", "000000004", "ABC", 0, "h-dave"⟩,
    ⟨"e5", "ERIN", "000000005", "ABC", 77, "h-erin"⟩], []⟩

/-! ## The collection under `updateOne` -/

theorem updateOne_of_find?_none (p : Account → Bool) (f : Account → Account)
    (l : List Account) (h : l.find? p = none) : updateOne p f l = l := by
  induction l with
  | nil => rfl
  | cons a rest ih =>
    by_cases hp : p a = true
    · simp [List.find?, hp] at h
    · have hp' : p a = false := by simpa using hp
      simp only [List.find?, hp'] at h
      simp [updateOne, hp', ih h]

theorem find?_updateOne_self (p : Account → Bool) (f : Account → Account)
    (hf : ∀ a, p a = true → p (f a) = true) (l : List Account) :
    (updateOne p f l).find? p = (l.find? p).map f := by
  induction l with
  | nil => rfl
  | cons a rest ih =>
    by_cases hp : p a = true
    · simp [updateOne, List.find?, hp, hf a hp]
    · have hp' : p a = false := by simpa using hp
      simp [updateOne, List.find?, hp', ih]

theorem find?_updateOne_other (p q : Account → Bool) (f : Account → Account)
    (hq : ∀ a, p a = true → q a = false ∧ q (f a) = false) (l : List Account) :
    (updateOne p f l).find? q = l.find? q := by
  induction l with
  | nil => rfl
  | cons a rest ih =>
    by_cases hp : p a = true
    · simp [updateOne, List.find?, hp, (hq a hp).1, (hq a hp).2]
    · have hp' : p a = false := by simpa using hp
      by_cases hqa : q a = true
      · simp [updateOne, List.find?, hp', hqa]
      · have hqa' : q a = false := by simpa using hqa
        simp [updateOne, List.find?, hp', hqa', ih]

theorem mem_updateOne (p : Account → Bool) (f : Account → Account)
    (l : List Account) (x : Account) (hx : x ∈ updateOne p f l) :
    x ∈ l ∨ ∃ b ∈ l, p b = true ∧ x = f b := by
  induction l with
  | nil => simp [updateOne] at hx
  | cons a rest ih =>
    by_cases hp : p a = true
    · simp only [updateOne, hp, if_true, List.mem_cons] at hx
      rcases hx with hx | hx
      · exact Or.inr ⟨a, List.mem_cons_self _ _, hp, hx⟩
      · exact Or.inl (List.mem_cons_of_mem _ hx)
    · have hp' : p a = false := by simpa using hp
      have hx' : x = a ∨ x ∈ updateOne p f rest := by
        simpa [updateOne, hp'] using hx
      rcases hx' with hx' | hx'
      · exact Or.inl (hx' ▸ List.mem_cons_self _ _)
      · rcases ih hx' with h | ⟨b, hb, hpb, hxb⟩
        · exact Or.inl (List.mem_cons_of_mem _ h)
        · exact Or.inr ⟨b, List.mem_cons_of_mem _ hb, hpb, hxb⟩

theorem sum_balance_updateOne (p : Account → Bool) (t : Int) (l : List Account)
    (acc : Account) (h : l.find? p = some acc) :
    ((updateOne p (fun a => { a with balance := t }) l).map (fun a => a.balance)).sum
      = (l.map (fun a => a.balance)).sum - acc.balance + t := by
  induction l with
  | nil => simp at h
  | cons a rest ih =>
    by_cases hp : p a = true
    · simp only [List.find?, hp, Option.some.injEq] at h
      subst h
      simp [updateOne, hp]
      ring
    · have hp' : p a = false := by simpa using hp
      simp only [List.find?, hp'] at h
      simp [updateOne, hp', ih h]
      ring

/-! ## The repository's `balance` write -/

theorem getBankAccount_balance_self (db : Db) (id : String) (t : Int) :
    Repository.getBankAccount (Repository.balance db id t).2 id
      = (Repository.getBankAccount db id).map (fun a => { a with balance := t }) := by
  show List.find? _ (updateOne _ _ db.docs) = _
  exact find?_updateOne_self (fun a => a.id == id) (fun a => { a with balance := t })
    (fun a h => h) db.docs

theorem getBankAccount_balance_other (db : Db) (id id' : String) (t : Int)
    (hne : id' ≠ id) :
    Repository.getBankAccount (Repository.balance db id t).2 id'
      = Repository.getBankAccount db id' := by
  show List.find? _ (updateOne _ _ db.docs) = _
  refine find?_updateOne_other (fun a => a.id == id) (fun a => a.id == id')
    (fun a => { a with balance := t }) (fun a h => ?_) db.docs
  have ha : a.id = id := by simpa using h
  constructor
  · simpa [ha] using fun h' : id = id' => hne h'.symm
  · simpa [ha] using fun h' : id = id' => hne h'.symm

theorem totalBalance_balance (db : Db) (id : String) (t : Int) (acc : Account)
    (h : Repository.getBankAccount db id = some acc) :
    totalBalance (Repository.balance db id t).2 = totalBalance db - acc.balance + t := by
  show ((updateOne _ _ db.docs).map _).sum = _
  exact sum_balance_updateOne (fun a => a.id == id) t db.docs acc h

theorem balance_docs_nonneg (db : Db) (id : String) (t : Int) (ht : 0 ≤ t)
    (hinv : ∀ a ∈ db.docs, 0 ≤ a.balance) :
    ∀ a ∈ (Repository.balance db id t).2.docs, 0 ≤ a.balance := by
  intro a ha
  rcases mem_updateOne _ _ _ _ ha with h | ⟨b, _, _, hb⟩
  · exact hinv a h
  · rw [hb]; exact ht

/-! ## The service functions on an existing account -/

theorem deposit_eq (db : Db) (id : String) (amount : Int) (acc : Account)
    (h : Repository.getBankAccount db id = some acc) :
    Service.deposit db id amount
      = (.jsTrue, (Repository.balance db id (acc.balance + amount)).2) := by
  simp [Service.deposit, h, UpdateResult.truthy]

theorem payment_eq (db : Db) (id : String) (amount : Int) (acc : Account)
    (h : Repository.getBankAccount db id = some acc) (hle : amount ≤ acc.balance) :
    Service.payment db id amount
      = (.jsTrue, (Repository.balance db id (acc.balance - amount)).2) := by
  simp [Service.payment, h, UpdateResult.truthy, not_lt.mpr hle]

theorem payment_short (db : Db) (id : String) (amount : Int) (acc : Account)
    (h : Repository.getBankAccount db id = some acc) (hlt : acc.balance < amount) :
    Service.payment db id amount = (.jsNull, db) := by
  simp [Service.payment, h, hlt]

theorem transferBalance_eq (db : Db) (id id2 : String) (amount : Int)
    (src tgt : Account) (hs : Repository.getBankAccount db id = some src)
    (ht : Repository.getBankAccount db id2 = some tgt) (hle : amount ≤ src.balance) :
    Service.transferBalance db id id2 amount
      = (.jsTrue,
         (Repository.balance (Repository.balance db id (src.balance - amount)).2 id2
            (tgt.balance + amount)).2) := by
  simp [Service.transferBalance, hs, ht, UpdateResult.truthy, not_lt.mpr hle]

/-- A transfer between two different accounts debits the source, credits the
target and keeps the sum of all balances. -/
theorem transferBalance_distinct (db : Db) (id id2 : String) (amount : Int)
    (src tgt : Account) (hs : Repository.getBankAccount db id = some src)
    (ht : Repository.getBankAccount db id2 = some tgt) (hle : amount ≤ src.balance)
    (hne : id ≠ id2) :
    (Service.transferBalance db id id2 amount).1 = .jsTrue ∧
    Repository.getBankAccount (Service.transferBalance db id id2 amount).2 id
      = some { src with balance := src.balance - amount } ∧
    Repository.getBankAccount (Service.transferBalance db id id2 amount).2 id2
      = some { tgt with balance := tgt.balance + amount } ∧
    totalBalance (Service.transferBalance db id id2 amount).2 = totalBalance db := by
  rw [transferBalance_eq db id id2 amount src tgt hs ht hle]
  have ht1 : Repository.getBankAccount
      (Repository.balance db id (src.balance - amount)).2 id2 = some tgt := by
    rw [getBankAccount_balance_other _ _ _ _ (Ne.symm hne), ht]
  refine ⟨rfl, ?_, ?_, ?_⟩
  · rw [getBankAccount_balance_other _ _ _ _ hne, getBankAccount_balance_self, hs]
    rfl
  · rw [getBankAccount_balance_self, ht1]
    rfl
  · rw [totalBalance_balance _ _ _ tgt ht1, totalBalance_balance _ _ _ src hs]
    ring

/-- C1. `transferBalance(A, A, 10)` on an account holding 100 returns `true`
after issuing both writes; the account then holds 110, not 90, and the sum of
the balances in the store has grown from 100 to 110. -/
theorem transferBalance_same_account_gains :
    Repository.getBankAccount soloDb "a1"
      = some ⟨"a1", "ALICE", "000000001", "ABC", 100, "h-alice"⟩ ∧
    (Service.transferBalance soloDb "a1" "a1" 10).1 = .jsTrue ∧
    (Service.transferBalance soloDb "a1" "a1" 10).2.calls
      = [.balance "a1" 90, .balance "a1" 110] ∧
    Repository.getBankAccount (Service.transferBalance soloDb "a1" "a1" 10).2 "a1"
      = some ⟨"a1", "ALICE", "000000001", "ABC", 110, "h-alice"⟩ ∧
    totalBalance soloDb = 100 ∧
    totalBalance (Service.transferBalance soloDb "a1" "a1" 10).2 = 110 := by
  decide

/-- C7. If every stored balance is non-negative and the amount is positive,
then after `deposit`, after `payment` and after `transferBalance`, whatever
they return, every stored balance is still non-negative. -/
theorem balance_operations_keep_nonneg (db : Db) (id id2 : String) (amount : Int)
    (hinv : ∀ a ∈ db.docs, 0 ≤ a.balance) (hamt : 0 < amount) :
    (∀ a ∈ (Service.deposit db id amount).2.docs, 0 ≤ a.balance) ∧
    (∀ a ∈ (Service.payment db id amount).2.docs, 0 ≤ a.balance) ∧
    (∀ a ∈ (Service.transferBalance db id id2 amount).2.docs, 0 ≤ a.balance) := by
  have hfound : ∀ (i : String) (acc : Account),
      Repository.getBankAccount db i = some acc → 0 ≤ acc.balance := by
    intro i acc h
    exact hinv acc (List.mem_of_find?_eq_some h)
  refine ⟨?_, ?_, ?_⟩
  · cases h : Repository.getBankAccount db id with
    | none => simpa [Service.deposit, h] using hinv
    | some acc =>
      rw [deposit_eq db id amount acc h]
      exact balance_docs_nonneg db id _ (by have := hfound id acc h; omega) hinv
  · cases h : Repository.getBankAccount db id with
    | none => simpa [Service.payment, h] using hinv
    | some acc =>
      by_cases hlt : acc.balance < amount
      · rw [payment_short db id amount acc h hlt]; exact hinv
      · rw [payment_eq db id amount acc h (not_lt.mp hlt)]
        exact balance_docs_nonneg db id _ (by omega) hinv
  · cases hs : Repository.getBankAccount db id with
    | none => simpa [Service.transferBalance, hs] using hinv
    | some src =>
      cases ht : Repository.getBankAccount db id2 with
      | none => simpa [Service.transferBalance, hs, ht] using hinv
      | some tgt =>
        by_cases hlt : src.balance < amount
        · simpa [Service.transferBalance, hs, ht, hlt] using hinv
        · rw [transferBalance_eq db id id2 amount src tgt hs ht (not_lt.mp hlt)]
          refine balance_docs_nonneg _ id2 _ ?_ (balance_docs_nonneg db id _ (by omega) hinv)
          have := hfound id2 tgt ht
          omega

/-- C7, at the two-account collection with a transfer of 30. -/
theorem balance_operations_keep_nonneg_witness :
    (∀ a ∈ pairDb.docs, 0 ≤ a.balance) ∧ (0 : Int) < 30 ∧
    (∀ a ∈ (Service.transferBalance pairDb "a1" "b2" 30).2.docs, 0 ≤ a.balance) :=
  ⟨by decide, by decide,
    (balance_operations_keep_nonneg pairDb "a1" "b2" 30 (by decide) (by decide)).2.2⟩

/-- C8. If the source id names no account, or the target id names no account,
or the source's balance is below the amount, `transferBalance` returns `false`,
issues no repository call and leaves the collection as it was. -/
theorem transferBalance_rejects (db : Db) (id id2 : String) (amount : Int)
    (h : Repository.getBankAccount db id = none ∨
         Repository.getBankAccount db id2 = none ∨
         ∃ acc, Repository.getBankAccount db id = some acc ∧ acc.balance < amount) :
    (Service.transferBalance db id id2 amount).1 = .jsFalse ∧
    (Service.transferBalance db id id2 amount).1 ≠ .jsTrue ∧
    (Service.transferBalance db id id2 amount).2.calls = db.calls ∧
    (Service.transferBalance db id id2 amount).2.docs = db.docs := by
  have key : Service.transferBalance db id id2 amount = (.jsFalse, db) := by
    rcases h with h | h | ⟨acc, hacc, hlt⟩
    · simp [Service.transferBalance, h]
    · cases hs : Repository.getBankAccount db id with
      | none => simp [Service.transferBalance, hs]
      | some src => simp [Service.transferBalance, hs, h]
    · cases ht : Repository.getBankAccount db id2 with
      | none => simp [Service.transferBalance, hacc, ht]
      | some tgt => simp [Service.transferBalance, hacc, ht, hlt]
  rw [key]
  exact ⟨rfl, fun hc => Flag.noConfusion hc, rfl, rfl⟩

/-- C8, at a transfer of 101 out of an account holding 100. -/
theorem transferBalance_rejects_witness :
    (Service.transferBalance pairDb "a1" "b2" 101).1 = .jsFalse ∧
    (Service.transferBalance pairDb "a1" "b2" 101).1 ≠ .jsTrue ∧
    (Service.transferBalance pairDb "a1" "b2" 101).2.calls = pairDb.calls ∧
    (Service.transferBalance pairDb "a1" "b2" 101).2.docs = pairDb.docs :=
  transferBalance_rejects pairDb "a1" "b2" 101
    (Or.inr (Or.inr ⟨⟨"a1", "ALICE", "000000001", "ABC", 100, "h-alice"⟩,
      by decide, by decide⟩))

theorem accountNumberIsRegistered_of_mem (db : Db) (accountNumber : String)
    (h : ∃ a ∈ db.docs, a.accountNumber = accountNumber) :
    Service.accountNumberIsRegistered db accountNumber = true := by
  obtain ⟨a, ha, hn⟩ := h
  unfold Service.accountNumberIsRegistered Repository.getBankAccountByAccountNumber
  cases hf : db.docs.find? (fun a => a.accountNumber == accountNumber) with
  | some _ => rfl
  | none =>
    have := List.find?_eq_none.mp hf a ha
    simp [hn] at this

/-- C9. A create-account request whose password equals its confirmation and
whose account number is already held by a stored account is answered with the
account-number-already-taken error; no repository call is issued (the call log
is as before) and the collection is unchanged. -/
theorem createBankAccount_duplicate_rejected (pw : PasswordUtil) (db : Db)
    (newId name accountNumber bank : String) (deposit : Int)
    (password password_confirm : String) (hconf : password = password_confirm)
    (hdup : ∃ a ∈ db.docs, a.accountNumber = accountNumber) :
    (Controller.createBankAccount pw db newId name accountNumber bank deposit
        password password_confirm).1
      = .error .ACCOUNT_NUMBER_ALREADY_TAKEN "Account Number is already registered" ∧
    (Controller.createBankAccount pw db newId name accountNumber bank deposit
        password password_confirm).2.calls = db.calls ∧
    (Controller.createBankAccount pw db newId name accountNumber bank deposit
        password password_confirm).2 = db := by
  have hreg := accountNumberIsRegistered_of_mem db accountNumber hdup
  simp [Controller.createBankAccount, hconf, hreg]

/-- C9, at a request reusing the account number of the stored account. -/
theorem createBankAccount_duplicate_rejected_witness :
    (Controller.createBankAccount demoPassword soloDb "n9" "CAROL" "000000001" "ABC" 50
        "Pw1!xx" "Pw1!xx").1
      = .error .ACCOUNT_NUMBER_ALREADY_TAKEN "Account Number is already registered" ∧
    (Controller.createBankAccount demoPassword soloDb "n9" "CAROL" "000000001" "ABC" 50
        "Pw1!xx" "Pw1!xx").2.calls = soloDb.calls ∧
    (Controller.createBankAccount demoPassword soloDb "n9" "CAROL" "000000001" "ABC" 50
        "Pw1!xx" "Pw1!xx").2 = soloDb :=
  createBankAccount_duplicate_rejected demoPassword soloDb "n9" "CAROL" "000000001" "ABC" 50
    "Pw1!xx" "Pw1!xx" rfl
    ⟨⟨"a1", "ALICE", "000000001", "ABC", 100, "h-alice"⟩, by decide, rfl⟩

/-- C10. For an existing account and a password that does not verify against
its stored hash, the update, delete, change-password, payment and transfer
handlers all answer with an error and hand back the store exactly as it was:
same documents, and no repository call issued. -/
theorem wrong_password_leaves_store (pw : PasswordUtil) (db : Db) (id : String)
    (acc : Account) (password : String)
    (hacc : Repository.getBankAccount db id = some acc)
    (hbad : pw.passwordMatched password acc.password = false) :
    (∀ name accountNumber,
      (Controller.updateBankAccount pw db id name accountNumber password).1.isError = true ∧
      (Controller.updateBankAccount pw db id name accountNumber password).2 = db) ∧
    ((Controller.deleteBankAccount pw db id password).1
        = .error .INVALID_CREDENTIALS "Wrong password" ∧
      (Controller.deleteBankAccount pw db id password).2 = db) ∧
    (∀ password_new password_confirm,
      (Controller.changePassword pw db id password password_new password_confirm).1.isError
        = true ∧
      (Controller.changePassword pw db id password password_new password_confirm).2 = db) ∧
    (∀ amount,
      (Controller.payment pw db id amount password).1
        = .error .INVALID_CREDENTIALS "Wrong password" ∧
      (Controller.payment pw db id amount password).2 = db) ∧
    (∀ id2 amount,
      (Controller.transferBalance pw db id id2 amount password).1
        = .error .INVALID_CREDENTIALS "Wrong password" ∧
      (Controller.transferBalance pw db id id2 amount password).2 = db) := by
  have hcheck : Service.checkPassword pw db id password = some false := by
    simp [Service.checkPassword, hacc, hbad]
  refine ⟨?_, ?_, ?_, ?_, ?_⟩
  · intro name accountNumber
    by_cases hreg : Service.accountNumberIsRegistered db accountNumber = true
    · simp [Controller.updateBankAccount, hreg, Response.isError]
    · simp [Controller.updateBankAccount, hreg, hcheck, Response.isError]
  · simp [Controller.deleteBankAccount, hcheck]
  · intro password_new password_confirm
    by_cases hc : password_new = password_confirm
    · simp [Controller.changePassword, hc, hcheck, Response.isError]
    · simp [Controller.changePassword, hc, Response.isError]
  · intro amount
    simp [Controller.payment, hcheck]
  · intro id2 amount
    simp [Controller.transferBalance, hcheck]

/-- C10, at the two-account collection with a wrong password for `a1`. -/
theorem wrong_password_leaves_store_witness :
    (Controller.deleteBankAccount demoPassword pairDb "a1" "guess").2 = pairDb ∧
    (Controller.payment demoPassword pairDb "a1" 10 "guess").2 = pairDb ∧
    (Controller.transferBalance demoPassword pairDb "a1" "b2" 10 "guess").2 = pairDb :=
  have h := wrong_password_leaves_store demoPassword pairDb "a1"
    ⟨"a1", "ALICE", "000000001", "ABC", 100, "h-alice"⟩ "guess" (by decide) (by decide)
  ⟨h.2.1.2, (h.2.2.2.1 10).2, (h.2.2.2.2 "b2" 10).2⟩

end DigitalBank

namespace Authentication

open DigitalBank (Response ErrorType)

/-! ## The login throttle -/

theorem login_state_other (st : FailedLoginAttempts) (e e' : String) (t : Int)
    (c : Option String) (hne : e' ≠ e) : (login st e' t c).2 e = st e := by
  unfold login
  split
  · rfl
  · cases c with
    | none => simp [Function.update, hne.symm]
    | some token =>
      show deleteEntry st e' e = st e
      unfold deleteEntry
      split
      · rfl
      · simp [Function.update, hne.symm]

theorem login_state_congr (st st' : FailedLoginAttempts) (e : String) (t : Int)
    (c : Option String) (h : st e = st' e) :
    (login st e t c).2 e = (login st' e t c).2 e := by
  unfold login
  simp only [failedAttempt, lastFailedAttempt, h]
  split
  · exact h
  · cases c with
    | none => simp
    | some token =>
      show deleteEntry st e e = deleteEntry st' e e
      unfold deleteEntry
      split
      · exact h
      · simp

theorem runLogins_congr (e : String) (evs : List Attempt) :
    ∀ st st' : FailedLoginAttempts, st e = st' e →
      runLogins st evs e = runLogins st' (evs.filter (fun a => a.email == e)) e := by
  induction evs with
  | nil => intro st st' h; exact h
  | cons a rest ih =>
    intro st st' h
    by_cases ha : a.email = e
    · have hb : (a.email == e) = true := by simpa using ha
      simp only [List.filter, hb, runLogins]
      apply ih
      rw [ha]
      exact login_state_congr st st' e _ _ h
    · have hb : (a.email == e) = false := by simpa using ha
      simp only [List.filter, hb, runLogins]
      apply ih
      rw [login_state_other st e a.email _ _ ha]
      exact h

theorem login_failure_records (st : FailedLoginAttempts) (e : String) (t : Int)
    (hn : failedAttempt st e < 5) :
    (login st e t none).2 e = some ⟨failedAttempt st e + 1, t⟩ := by
  unfold login
  have : ¬ (5 ≤ failedAttempt st e ∧ t - lastFailedAttempt st e < lockWindow) :=
    fun h => absurd h.1 (by omega)
  simp [this]

theorem failedAttempt_after_failure (st : FailedLoginAttempts) (e : String) (t : Int)
    (hn : failedAttempt st e < 5) :
    failedAttempt (login st e t none).2 e = failedAttempt st e + 1 := by
  have h := login_failure_records st e t hn
  simp only [failedAttempt, h]

/-- C5. A login attempt for `e` at time `now` is answered with FORBIDDEN exactly
when the record held for `e` beforehand has `attempts >= 5` and
`now - lastAttempt < 1800000`; an identifier without a record, or with fewer
than five recorded failures, is never answered with FORBIDDEN. -/
theorem login_forbidden_iff (st : FailedLoginAttempts) (e : String) (now : Int)
    (cred : Option String) :
    ((login st e now cred).1.errorKind = some .FORBIDDEN ↔
      ∃ r, st e = some r ∧ 5 ≤ r.attempts ∧ now - r.lastAttempt < 1800000) ∧
    (st e = none → (login st e now cred).1.errorKind ≠ some .FORBIDDEN) ∧
    (∀ r, st e = some r → r.attempts < 5 →
      (login st e now cred).1.errorKind ≠ some .FORBIDDEN) := by
  have main : (login st e now cred).1.errorKind = some .FORBIDDEN ↔
      ∃ r, st e = some r ∧ 5 ≤ r.attempts ∧ now - r.lastAttempt < 1800000 := by
    unfold login
    cases hst : st e with
    | none =>
      cases cred <;>
        simp [failedAttempt, lastFailedAttempt, hst, Response.errorKind]
    | some r =>
      by_cases hl : 5 ≤ r.attempts ∧ now - r.lastAttempt < 1800000
      · simp [failedAttempt, lastFailedAttempt, hst, lockWindow, hl, Response.errorKind]
      · cases cred <;>
          simp [failedAttempt, lastFailedAttempt, hst, lockWindow, hl, Response.errorKind]
  refine ⟨main, ?_, ?_⟩
  · intro hnone hf
    obtain ⟨r, hr, _⟩ := main.mp hf
    rw [hnone] at hr
    exact Option.noConfusion hr
  · intro r hr hlt hf
    obtain ⟨r', hr', h5, _⟩ := main.mp hf
    rw [hr] at hr'
    cases hr'
    omega

/-- C4. Starting with no record for `e`, after requests among which exactly
five are for `e`, all five with rejected credentials (the last at time `t5`),
a further attempt for `e` at a time `t6` with `t6 - t5 < 30` minutes is
answered with FORBIDDEN whatever its credentials, and the state is kept. -/
theorem sixth_attempt_forbidden (st : FailedLoginAttempts) (e : String)
    (evs : List Attempt) (t1 t2 t3 t4 t5 t6 : Int) (cred : Option String)
    (hclean : st e = none)
    (hfive : evs.filter (fun a => a.email == e)
      = [⟨e, t1, none⟩, ⟨e, t2, none⟩, ⟨e, t3, none⟩, ⟨e, t4, none⟩, ⟨e, t5, none⟩])
    (hwin : t6 - t5 < 30 * 60 * 1000) :
    (login (runLogins st evs) e t6 cred).1.errorKind = some .FORBIDDEN ∧
    (login (runLogins st evs) e t6 cred).2 = runLogins st evs := by
  have hrec : runLogins st evs e = some ⟨5, t5⟩ := by
    rw [runLogins_congr e evs st st rfl, hfive]
    simp only [runLogins]
    have a0 : failedAttempt st e = 0 := by simp [failedAttempt, hclean]
    have a1 := failedAttempt_after_failure st e t1 (by omega)
    have a2 := failedAttempt_after_failure (login st e t1 none).2 e t2 (by omega)
    have a3 := failedAttempt_after_failure
      (login (login st e t1 none).2 e t2 none).2 e t3 (by omega)
    have a4 := failedAttempt_after_failure
      (login (login (login st e t1 none).2 e t2 none).2 e t3 none).2 e t4 (by omega)
    rw [login_failure_records _ e t5 (by omega)]
    have : failedAttempt
        (login (login (login (login st e t1 none).2 e t2 none).2 e t3 none).2 e t4 none).2 e
        + 1 = 5 := by omega
    rw [this]
  have hlock : 5 ≤ failedAttempt (runLogins st evs) e ∧
      t6 - lastFailedAttempt (runLogins st evs) e < lockWindow := by
    simp only [failedAttempt, lastFailedAttempt, hrec, lockWindow]
    exact ⟨le_refl _, hwin⟩
  unfold login
  simp [hlock, Response.errorKind]

/-- C4, at five rejected attempts at times 10 to 50 and a sixth, with accepted
credentials, at time 60. -/
theorem sixth_attempt_forbidden_witness :
    (login (runLogins emptyAttempts fiveFailures) "u@mail.io" 60 (some "token")).1.errorKind
      = some ErrorType.FORBIDDEN ∧
    (login (runLogins emptyAttempts fiveFailures) "u@mail.io" 60 (some "token")).2
      = runLogins emptyAttempts fiveFailures :=
  sixth_attempt_forbidden emptyAttempts "u@mail.io" fiveFailures 10 20 30 40 50 60
    (some "token") rfl (by decide) (by decide)

/-- C6, refuted as stated: with five failures recorded at time 1000, an attempt
at time 2000 whose credentials verify is answered with FORBIDDEN and the record
for the identifier is still there. -/
theorem verified_login_while_locked_keeps_record :
    (login lockedAttempts "u@mail.io" 2000 (some "token")).1.errorKind
      = some ErrorType.FORBIDDEN ∧
    (login lockedAttempts "u@mail.io" 2000 (some "token")).2 "u@mail.io"
      = some ⟨5, 1000⟩ ∧
    (login lockedAttempts "u@mail.io" 2000 (some "token")).2 "u@mail.io" ≠ none := by
  decide

/-- With one failure recorded under the key `__proto__`, an attempt for that
key whose credentials verify returns the login result, and the record is
still read afterwards: the `delete` has removed nothing. -/
theorem verified_login_proto_key_keeps_record :
    (login (Function.update emptyAttempts "__proto__" (some ⟨1, 1000⟩)) "__proto__" 2000
        (some "token")).1 = .ok "token" ∧
    (login (Function.update emptyAttempts "__proto__" (some ⟨1, 1000⟩)) "__proto__" 2000
        (some "token")).2 "__proto__" = some ⟨1, 1000⟩ := by
  decide

/-- C6, amended. For an identifier other than `__proto__` that is not locked at
time `now` (its record, if any, has fewer than five attempts or a last attempt
at least 30 minutes old), an attempt whose credentials verify returns the
login result and leaves no record for the identifier. -/
theorem verified_login_clears_record (st : FailedLoginAttempts) (e : String)
    (now : Int) (token : String) (hkey : e ≠ "__proto__")
    (hfree : ∀ r, st e = some r → r.attempts < 5 ∨ 1800000 ≤ now - r.lastAttempt) :
    (login st e now (some token)).1 = .ok token ∧
    (login st e now (some token)).2 e = none := by
  have hno : ¬ (5 ≤ failedAttempt st e ∧ now - lastFailedAttempt st e < lockWindow) := by
    cases hst : st e with
    | none => simp [failedAttempt, hst]
    | some r =>
      simp only [failedAttempt, lastFailedAttempt, hst, lockWindow]
      rcases hfree r hst with h | h <;> omega
  unfold login
  simp [hno, deleteEntry, hkey]

/-- C6 amended, at a record of five failures whose last one is 30 minutes old. -/
theorem verified_login_clears_record_witness :
    (login lockedAttempts "u@mail.io" 1801000 (some "token")).1 = .ok "token" ∧
    (login lockedAttempts "u@mail.io" 1801000 (some "token")).2 "u@mail.io" = none :=
  verified_login_clears_record lockedAttempts "u@mail.io" 1801000 "token" (by decide)
    (fun r hr => Or.inr (by
      have h5 : r = ⟨5, 1000⟩ := by
        have : lockedAttempts "u@mail.io" = some ⟨5, 1000⟩ := by decide
        rw [this] at hr
        exact (Option.some.inj hr).symm
      rw [h5]
      decide))

end Authentication

namespace Authentication

open DigitalBank (Response ErrorType)

theorem locked_of_forbidden (st : FailedLoginAttempts) (e : String) (now : Int)
    (cred : Option String)
    (h : (login st e now cred).1.errorKind = some .FORBIDDEN) :
    5 ≤ failedAttempt st e ∧ now - lastFailedAttempt st e < lockWindow := by
  by_contra hno
  unfold login at h
  rw [if_neg hno] at h
  cases cred <;> simp [Response.errorKind] at h

/-- C19. A login attempt answered with FORBIDDEN hands back the throttle state
it received: the identifier's record keeps its attempts count and its
lastAttempt, it is not deleted, and no other identifier's record changes,
whatever the credentials were. -/
theorem locked_attempt_keeps_state (st : FailedLoginAttempts) (e : String) (now : Int)
    (cred : Option String)
    (hlocked : (login st e now cred).1.errorKind = some .FORBIDDEN) :
    (login st e now cred).2 = st ∧
    (login st e now cred).2 e = st e ∧
    (login st e now cred).2 e ≠ none ∧
    ∀ e2, (login st e now cred).2 e2 = st e2 := by
  have hlock := locked_of_forbidden st e now cred hlocked
  have hst : (login st e now cred).2 = st := by
    unfold login
    rw [if_pos hlock]
  have hsome : st e ≠ none := by
    intro hnone
    have h5 := hlock.1
    simp [failedAttempt, hnone] at h5
  rw [hst]
  exact ⟨rfl, rfl, hsome, fun _ => rfl⟩

/-- C19, at a record of five failures and an attempt with accepted credentials
one second after the last failure. -/
theorem locked_attempt_keeps_state_witness :
    (login lockedAttempts "u@mail.io" 2000 (some "token")).2 = lockedAttempts ∧
    (login lockedAttempts "u@mail.io" 2000 (some "token")).2 "u@mail.io"
      = lockedAttempts "u@mail.io" ∧
    (login lockedAttempts "u@mail.io" 2000 (some "token")).2 "u@mail.io" ≠ none ∧
    ∀ e2, (login lockedAttempts "u@mail.io" 2000 (some "token")).2 e2 = lockedAttempts e2 :=
  locked_attempt_keeps_state lockedAttempts "u@mail.io" 2000 (some "token") (by decide)

/-- C16. When the attempt is locked out and `0 <= now - lastAttempt < 1800000`,
the handler answers FORBIDDEN with the waiting time
`w = ceil((1800000 - (now - lastAttempt)) / 60000)` in its message; `w` is the
least whole number of minutes with `now + w * 60000 >= lastAttempt + 1800000`,
and `1 <= w <= 30`. -/
theorem waitingTime_is_remaining_minutes (st : FailedLoginAttempts) (e : String)
    (now : Int) (cred : Option String) (r : LoginAttemptRecord)
    (hrec : st e = some r) (h5 : 5 ≤ r.attempts)
    (hge : 0 ≤ now - r.lastAttempt) (hlt : now - r.lastAttempt < 1800000) :
    (login st e now cred).1 = .error .FORBIDDEN
      ("Too many failed login attempts. Please try again in " ++
        toString (waitingTime now r.lastAttempt) ++ " minutes") ∧
    waitingTime now r.lastAttempt
      = -((-(1800000 - (now - r.lastAttempt))) / 60000) ∧
    now + waitingTime now r.lastAttempt * 60000 ≥ r.lastAttempt + 1800000 ∧
    (∀ v : Int, now + v * 60000 ≥ r.lastAttempt + 1800000 →
      waitingTime now r.lastAttempt ≤ v) ∧
    1 ≤ waitingTime now r.lastAttempt ∧ waitingTime now r.lastAttempt ≤ 30 := by
  have hlock : 5 ≤ failedAttempt st e ∧ now - lastFailedAttempt st e < lockWindow := by
    simp only [failedAttempt, lastFailedAttempt, hrec, lockWindow]
    exact ⟨h5, by omega⟩
  have hw : waitingTime now r.lastAttempt
      = -((-(1800000 - (now - r.lastAttempt))) / 60000) := by
    simp [waitingTime, ceilDiv, lockWindow]
  refine ⟨?_, hw, ?_, ?_, ?_, ?_⟩
  · unfold login
    rw [if_pos hlock]
    simp [lastFailedAttempt, hrec]
  · rw [hw]; omega
  · intro v hv; rw [hw]; omega
  · rw [hw]; omega
  · rw [hw]; omega

/-- C16, at a lock whose last failure is 61 seconds old: 29 minutes remain. -/
theorem waitingTime_is_remaining_minutes_witness :
    waitingTime 62000 1000 = 29 ∧ (1 : Int) ≤ waitingTime 62000 1000 ∧
    waitingTime 62000 1000 ≤ 30 :=
  have h := waitingTime_is_remaining_minutes lockedAttempts "u@mail.io" 62000 none
    ⟨5, 1000⟩ (by decide) (by decide) (by decide) (by decide)
  ⟨by rw [h.2.1]; decide, h.2.2.2.2.1, h.2.2.2.2.2⟩

end Authentication

namespace DigitalBank

/-- C20. The update handler answers with the account-number-already-taken
error whenever some stored account holds the requested account number, the
account being updated included; so an update of an existing account that keeps
its current account number fails and leaves the store as it was, whatever the
password. -/
theorem updateBankAccount_same_number_rejected (pw : PasswordUtil) (db : Db)
    (id : String) (acc : Account) (name password : String)
    (hacc : Repository.getBankAccount db id = some acc) :
    (∀ accountNumber, (∃ a ∈ db.docs, a.accountNumber = accountNumber) →
      Controller.updateBankAccount pw db id name accountNumber password
        = (.error .ACCOUNT_NUMBER_ALREADY_TAKEN "Account number is already registered",
           db)) ∧
    Controller.updateBankAccount pw db id name acc.accountNumber password
      = (.error .ACCOUNT_NUMBER_ALREADY_TAKEN "Account number is already registered",
         db) := by
  have gen : ∀ accountNumber, (∃ a ∈ db.docs, a.accountNumber = accountNumber) →
      Controller.updateBankAccount pw db id name accountNumber password
        = (.error .ACCOUNT_NUMBER_ALREADY_TAKEN "Account number is already registered",
           db) := by
    intro accountNumber hdup
    have hreg := accountNumberIsRegistered_of_mem db accountNumber hdup
    simp [Controller.updateBankAccount, hreg]
  exact ⟨gen, gen _ ⟨acc, List.mem_of_find?_eq_some hacc, rfl⟩⟩

/-- C20, at a rename of the stored account with its own number and the right
password. -/
theorem updateBankAccount_same_number_rejected_witness :
    Controller.updateBankAccount demoPassword soloDb "a1" "ALICIA" "000000001" "alice"
      = (.error .ACCOUNT_NUMBER_ALREADY_TAKEN "Account number is already registered",
         soloDb) ∧
    demoPassword.passwordMatched "alice" "h-alice" = true :=
  ⟨(updateBankAccount_same_number_rejected demoPassword soloDb "a1"
      ⟨"a1", "ALICE", "000000001", "ABC", 100, "h-alice"⟩ "ALICIA" "alice"
      (by decide)).2, by decide⟩

theorem map_updateOne_balance (p : Account → Bool) (t : Int) (l : List Account) :
    (updateOne p (fun a => { a with balance := t }) l).map
        (fun a => { a with balance := 0 })
      = l.map (fun a => { a with balance := 0 }) := by
  induction l with
  | nil => rfl
  | cons a rest ih =>
    by_cases hp : p a = true
    · simp [updateOne, hp]
    · have hp' : p a = false := by simpa using hp
      simp [updateOne, hp', ih]

theorem transferBalance_true_inv (db : Db) (id id2 : String) (amount : Int)
    (h : (Service.transferBalance db id id2 amount).1 = .jsTrue) :
    ∃ src tgt, Repository.getBankAccount db id = some src ∧
      Repository.getBankAccount db id2 = some tgt ∧ amount ≤ src.balance := by
  cases hs : Repository.getBankAccount db id with
  | none => simp [Service.transferBalance, hs] at h
  | some src =>
    cases ht : Repository.getBankAccount db id2 with
    | none => simp [Service.transferBalance, hs, ht] at h
    | some tgt =>
      by_cases hlt : src.balance < amount
      · simp [Service.transferBalance, hs, ht, hlt] at h
      · exact ⟨src, tgt, rfl, rfl, not_lt.mp hlt⟩

/-- C18. A `transferBalance(A, B, amount)` that returns `true` with `A != B`
changes the two balances and nothing else: looking up any other id gives the
same account as before, the source and the target keep every field but
`balance`, and document by document the collection keeps `id`, `ownerName`,
`accountNumber`, `bank` and `password` (none added, none removed). -/
theorem transferBalance_frame (db : Db) (id id2 : String) (amount : Int)
    (hne : id ≠ id2)
    (hok : (Service.transferBalance db id id2 amount).1 = .jsTrue) :
    (∀ id3, id3 ≠ id → id3 ≠ id2 →
      Repository.getBankAccount (Service.transferBalance db id id2 amount).2 id3
        = Repository.getBankAccount db id3) ∧
    (∃ src tgt, Repository.getBankAccount db id = some src ∧
      Repository.getBankAccount db id2 = some tgt ∧
      Repository.getBankAccount (Service.transferBalance db id id2 amount).2 id
        = some ⟨src.id, src.ownerName, src.accountNumber, src.bank,
                src.balance - amount, src.password⟩ ∧
      Repository.getBankAccount (Service.transferBalance db id id2 amount).2 id2
        = some ⟨tgt.id, tgt.ownerName, tgt.accountNumber, tgt.bank,
                tgt.balance + amount, tgt.password⟩) ∧
    (Service.transferBalance db id id2 amount).2.docs.map
        (fun a => { a with balance := 0 })
      = db.docs.map (fun a => { a with balance := 0 }) := by
  obtain ⟨src, tgt, hs, ht, hle⟩ := transferBalance_true_inv db id id2 amount hok
  have hd := transferBalance_distinct db id id2 amount src tgt hs ht hle hne
  refine ⟨?_, ⟨src, tgt, hs, ht, hd.2.1, hd.2.2.1⟩, ?_⟩
  · intro id3 h1 h2
    rw [transferBalance_eq db id id2 amount src tgt hs ht hle,
      getBankAccount_balance_other _ _ _ _ h2, getBankAccount_balance_other _ _ _ _ h1]
  · rw [transferBalance_eq db id id2 amount src tgt hs ht hle]
    show (updateOne _ _ (updateOne _ _ db.docs)).map _ = _
    rw [map_updateOne_balance, map_updateOne_balance]

/-- C18, at a transfer of 30 between the two stored accounts. -/
theorem transferBalance_frame_witness :
    (Service.transferBalance pairDb "a1" "b2" 30).2.docs.map
        (fun a => { a with balance := 0 })
      = pairDb.docs.map (fun a => { a with balance := 0 }) ∧
    (Service.transferBalance pairDb "a1" "b2" 30).2.docs.map (fun a => a.balance)
      = [70, 70] :=
  ⟨(transferBalance_frame pairDb "a1" "b2" 30 (by decide) (by decide)).2.2, by decide⟩

end DigitalBank

namespace Js

/-! ## The pagination loop -/

theorem sliceLoop_eq {α : Type} (l : List α) (k : Nat) :
    ∀ i : Nat, i + k ≤ l.length →
      sliceLoop l (i : Int) k = some ((l.drop i).take k) := by
  induction k with
  | zero => intro i _; simp [sliceLoop]
  | succ k ih =>
    intro i h
    have hi : i < l.length := by omega
    have hneg : ¬ ((i : Int) < 0) := by omega
    have hnext : ((i : Int) + 1) = ((i + 1 : Nat) : Int) := by omega
    rw [sliceLoop, if_neg hneg, Int.toNat_ofNat, List.getElem?_eq_getElem hi, hnext,
      ih (i + 1) (by omega), List.drop_eq_getElem_cons hi]
    rfl

theorem paginate_eq {α : Type} (l : List α) (p s : Int) (hp : 1 ≤ p) (hs : 1 ≤ s) :
    paginate l p s = some ((l.drop ((p - 1) * s).toNat).take s.toNat) := by
  obtain ⟨i, hi⟩ := Int.eq_ofNat_of_zero_le (Int.mul_nonneg (by omega : 0 ≤ p - 1)
    (by omega : 0 ≤ s))
  obtain ⟨k, hk⟩ := Int.eq_ofNat_of_zero_le (by omega : 0 ≤ s)
  subst hk
  unfold paginate
  simp only [hi, Int.toNat_ofNat]
  by_cases hin : i < l.length
  · have hcount : (min ((i : Int) + k) (l.length : Int) - i).toNat = min k (l.length - i) := by
      omega
    rw [hcount, sliceLoop_eq l _ i (by omega)]
    congr 1
    rw [List.take_eq_take]
    simp only [List.length_drop]
    omega
  · have hcount : (min ((i : Int) + k) (l.length : Int) - i).toNat = 0 := by omega
    rw [hcount, List.drop_eq_nil_of_le (by omega)]
    simp [sliceLoop]

theorem page_length {α : Type} (l : List α) (p s : Int) (hp : 1 ≤ p) (hs : 1 ≤ s) :
    (((l.drop ((p - 1) * s).toNat).take s.toNat).length : Int)
      = if (p - 1) * s < l.length then min s (l.length - (p - 1) * s) else 0 := by
  obtain ⟨i, hi⟩ := Int.eq_ofNat_of_zero_le (Int.mul_nonneg (by omega : 0 ≤ p - 1)
    (by omega : 0 ≤ s))
  obtain ⟨k, hk⟩ := Int.eq_ofNat_of_zero_le (by omega : 0 ≤ s)
  subst hk
  simp only [hi, Int.toNat_ofNat, List.length_take, List.length_drop]
  split <;> omega

theorem page_getElem? {α : Type} (l : List α) (p s : Int) (j : Nat) :
    ((l.drop ((p - 1) * s).toNat).take s.toNat)[j]?
      = if j < s.toNat then l[((p - 1) * s).toNat + j]? else none := by
  rw [List.getElem?_take, List.getElem?_drop]

end Js

namespace Js

theorem paginate_map_spec {α β : Type} (l : List α) (f : α → β) (p s : Int)
    (hp : 1 ≤ p) (hs : 1 ≤ s) :
    ∃ page, (paginate l p s).map (List.map f) = some page ∧
      page = ((l.drop ((p - 1) * s).toNat).take s.toNat).map f ∧
      (∀ j : Nat, page[j]?
        = if j < s.toNat then (l[((p - 1) * s).toNat + j]?).map f else none) ∧
      (page.length : Int)
        = (if (p - 1) * s < l.length then min s (l.length - (p - 1) * s) else 0) ∧
      (page ≠ [] ↔ (p - 1) * s < l.length) := by
  refine ⟨_, by rw [paginate_eq l p s hp hs]; rfl, rfl, ?_, ?_, ?_⟩
  · intro j
    rw [List.getElem?_map, page_getElem?]
    split <;> rfl
  · rw [List.length_map]
    exact page_length l p s hp hs
  · have hlen := page_length l p s hp hs
    rw [← List.length_pos, List.length_map]
    constructor
    · intro hpos
      by_contra hno
      rw [if_neg hno] at hlen
      omega
    · intro hlt
      rw [if_pos hlt] at hlen
      omega

theorem le_ceilDiv_iff (n s q : Int) (hs : 0 < s) :
    q ≤ ceilDiv n s ↔ (q - 1) * s < n := by
  unfold ceilDiv
  have h := @Int.ediv_lt_iff_lt_mul (-n) (1 - q) s hs
  have e : (1 - q) * s = -((q - 1) * s) := by ring
  rw [e] at h
  constructor
  · intro hq
    have : -n / s < 1 - q := by omega
    have := h.mp this
    omega
  · intro hq
    have : -n / s < 1 - q := h.mpr (by omega)
    omega

theorem ceilDiv_eq_ceil (n s : Int) (hs : 0 < s) :
    ceilDiv n s = ⌈((n : ℚ) / (s : ℚ))⌉ := by
  obtain ⟨k, hk⟩ := Int.eq_ofNat_of_zero_le (le_of_lt hs)
  subst hk
  unfold ceilDiv
  have h := Rat.floor_intCast_div_natCast (-n) k
  have e : (((-n : Int) : ℚ) / (k : ℚ)) = -((n : ℚ) / ((k : Int) : ℚ)) := by
    push_cast
    ring
  rw [e, Int.floor_neg] at h
  omega

end Js

namespace DigitalBank

/-- C11. With `L` the filtered and sorted list, `page_number = p >= 1` and
`page_size = s >= 1`, `getBankAccountsWithPagination` and
`getUsersWithPagination` return the rows of `L` at the indices `(p-1)*s` up to
but excluding `min(p*s, n)`, in order: entry `j` of the page is entry
`(p-1)*s + j` of `L` for `j < s`; the page has `min(s, n - (p-1)*s)` rows when
`(p-1)*s < n` and none otherwise. -/
theorem pagination_returns_slice (lower : String → String) (db : Db) (users : List Users.User)
    (search sort : String) (L : List Account) (U : List Users.User) (p s : Int)
    (hL : Service.filteredAccounts lower db search sort = some L)
    (hU : Users.filteredUsers lower users search sort = some U)
    (hp : 1 ≤ p) (hs : 1 ≤ s) :
    (∃ page, Service.getBankAccountsWithPagination lower db p s search sort = some page ∧
      page = ((L.drop ((p - 1) * s).toNat).take s.toNat).map accountRow ∧
      (∀ j : Nat, page[j]?
        = if j < s.toNat then (L[((p - 1) * s).toNat + j]?).map accountRow else none) ∧
      (page.length : Int)
        = (if (p - 1) * s < L.length then min s (L.length - (p - 1) * s) else 0)) ∧
    (∃ page, Users.getUsersWithPagination lower users p s search sort = some page ∧
      page = ((U.drop ((p - 1) * s).toNat).take s.toNat).map Users.row ∧
      (∀ j : Nat, page[j]?
        = if j < s.toNat then (U[((p - 1) * s).toNat + j]?).map Users.row else none) ∧
      (page.length : Int)
        = (if (p - 1) * s < U.length then min s (U.length - (p - 1) * s) else 0)) := by
  constructor
  · obtain ⟨page, h1, h2, h3, h4, _⟩ := Js.paginate_map_spec L accountRow p s hp hs
    refine ⟨page, ?_, h2, h3, h4⟩
    simp only [Service.getBankAccountsWithPagination, hL]
    exact h1
  · obtain ⟨page, h1, h2, h3, h4, _⟩ := Js.paginate_map_spec U Users.row p s hp hs
    refine ⟨page, ?_, h2, h3, h4⟩
    simp only [Users.getUsersWithPagination, hU]
    exact h1

/-- C11, at five users with `page_size = 2`: the third page is the fifth user
alone. -/
theorem pagination_returns_slice_witness :
    ∃ page, Users.getUsersWithPagination Js.asciiLowerCase Users.fiveUsers 3 2 "" "asc" = some page ∧
      page = [⟨"u5", "EVA", "eva@mail.io"⟩] ∧ (page.length : Int) = 1 :=
  have h := (pagination_returns_slice Js.asciiLowerCase pairDb Users.fiveUsers "" "asc" pairDb.docs
    Users.fiveUsers 3 2 (by decide) (by decide) (by decide) (by decide)).2
  h.elim fun page hpage => ⟨page, hpage.1, by rw [hpage.2.1]; decide,
    by rw [hpage.2.1]; decide⟩

/-- C12. With `n` the length of the filtered list, `page_size = s >= 1` and
`page_number = p >= 1`, `getBankAccounts` reports `totalPages = ceil(n / s)`;
page `q >= 1` served by `getBankAccountsWithPagination` is non-empty exactly
when `q <= totalPages`; `hasPreviousPages` holds exactly when `p > 1`; and
`hasNextPages` holds exactly when page `p + 1` is non-empty. -/
theorem pagination_metadata_agrees (lower : String → String) (db : Db) (search sort : String) (L : List Account)
    (p s : Int) (hL : Service.filteredAccounts lower db search sort = some L)
    (hp : 1 ≤ p) (hs : 1 ≤ s) :
    ∃ info, Service.getBankAccounts lower db p s search sort = some info ∧
      info.results = L.map accountRow ∧
      info.totalPages = ⌈((L.length : ℚ) / (s : ℚ))⌉ ∧
      (∀ q : Int, 1 ≤ q →
        ∃ page, Service.getBankAccountsWithPagination lower db q s search sort = some page ∧
          (page ≠ [] ↔ q ≤ info.totalPages)) ∧
      (info.hasPreviousPages = true ↔ 1 < p) ∧
      (info.hasNextPages = true ↔ p < info.totalPages) ∧
      (info.hasNextPages = true ↔
        ∃ page, Service.getBankAccountsWithPagination lower db (p + 1) s search sort = some page ∧
          page ≠ []) := by
  have hserved : ∀ q : Int, 1 ≤ q →
      ∃ page, Service.getBankAccountsWithPagination lower db q s search sort = some page ∧
        (page ≠ [] ↔ q ≤ Js.ceilDiv (L.length : Int) s) := by
    intro q hq
    obtain ⟨page, h1, _, _, _, h5⟩ := Js.paginate_map_spec L accountRow q s hq hs
    refine ⟨page, ?_, ?_⟩
    · simp only [Service.getBankAccountsWithPagination, hL]
      exact h1
    · rw [h5, Js.le_ceilDiv_iff _ _ _ (by omega)]
  have hnext : p < Js.ceilDiv (L.length : Int) s ↔ p + 1 ≤ Js.ceilDiv (L.length : Int) s := by
    omega
  refine ⟨Js.listing (L.map accountRow) p s, ?_, rfl, ?_, ?_, ?_, ?_, ?_⟩
  · simp [Service.getBankAccounts, hL]
  · simp only [Js.listing, List.length_map]
    exact_mod_cast Js.ceilDiv_eq_ceil (L.length : Int) s (by omega)
  · intro q hq
    simpa [Js.listing] using hserved q hq
  · simp [Js.listing]
  · simp [Js.listing]
  · obtain ⟨page, hpage, hiff⟩ := hserved (p + 1) (by omega)
    simp only [Js.listing, List.length_map, decide_eq_true_eq]
    rw [hnext, ← hiff]
    constructor
    · intro hne; exact ⟨page, hpage, hne⟩
    · rintro ⟨page2, hpage2, hne⟩
      rw [hpage] at hpage2
      cases hpage2
      exact hne

end DigitalBank

namespace Js

/-! ## Splitting a search expression -/

theorem splitColon_ne_nil (k : List Char) : splitColon k ≠ [] := by
  cases k with
  | nil => simp [splitColon]
  | cons c cs =>
    unfold splitColon
    split
    · simp
    · split <;> simp

theorem splitColon_head (k : List Char) :
    ∃ t, splitColon k = k.takeWhile (fun c => c != ':') :: t := by
  induction k with
  | nil => exact ⟨[], rfl⟩
  | cons c cs ih =>
    obtain ⟨t, ht⟩ := ih
    by_cases hc : c = ':'
    · exact ⟨splitColon cs, by simp [splitColon, hc, List.takeWhile]⟩
    · have hb : (c != ':') = true := by simpa using hc
      exact ⟨t, by simp [splitColon, hc, ht, List.takeWhile, hb]⟩

theorem splitColon_append_colon (f k : List Char) (hf : ':' ∉ f) :
    splitColon (f ++ ':' :: k) = f :: splitColon k := by
  induction f with
  | nil => simp [splitColon]
  | cons c cs ih =>
    have hc : c ≠ ':' := fun h => hf (by simp [h])
    have hcs : ':' ∉ cs := fun h => hf (List.mem_cons_of_mem _ h)
    simp [splitColon, hc, ih hcs]

theorem firstPart_expression (field key : String) (hf : ':' ∉ field.data) :
    firstPart (field ++ ":" ++ key) = field := by
  unfold firstPart split
  have hd : (field ++ ":" ++ key).data = field.data ++ ':' :: key.data := by
    simp [String.data_append]
  rw [hd, splitColon_append_colon _ _ hf]
  rfl

theorem secondPart_expression (field key : String) (hf : ':' ∉ field.data) :
    secondPart (field ++ ":" ++ key)
      = some (String.mk (key.data.takeWhile (fun c => c != ':'))) := by
  unfold secondPart split
  have hd : (field ++ ":" ++ key).data = field.data ++ ':' :: key.data := by
    simp [String.data_append]
  obtain ⟨t, ht⟩ := splitColon_head key.data
  rw [hd, splitColon_append_colon _ _ hf, ht]
  simp

theorem takeWhile_no_colon (key : String) (hk : ':' ∉ key.data) :
    String.mk (key.data.takeWhile (fun c => c != ':')) = key := by
  have : key.data.takeWhile (fun c => c != ':') = key.data := by
    rw [List.takeWhile_eq_self_iff]
    intro c hc
    have : c ≠ ':' := fun h => hk (h ▸ hc)
    simpa using this
  rw [this]

/-- With a colon-free field name in front, the filter step keeps the elements
whose property contains the text between the first and the second colon. -/
theorem filterBy_expression {α : Type} (toLowerCase : String → String)
    (recognised : String → Bool) (get : α → String → String) (field key : String)
    (l : List α) (hf : ':' ∉ field.data) :
    filterBy toLowerCase recognised get (field ++ ":" ++ key) l
      = some (if recognised field then
          l.filter (fun x => includes (toLowerCase (get x field))
            (toLowerCase (String.mk (key.data.takeWhile (fun c => c != ':')))))
        else l) := by
  unfold filterBy
  simp only [firstPart_expression field key hf, secondPart_expression field key hf]
  by_cases hr : recognised field = true
  · simp [hr]
  · simp [hr]

theorem sortBy_perm {α : Type} (prop : α → String → Value) (sortExpr : String)
    (l : List α) : (sortBy prop sortExpr l).Perm l := by
  unfold sortBy sort
  exact List.perm_insertionSort _ l

end Js

namespace Users

theorem getUsers_of_filter (lower : String → String) (users filtered : List User) (p s : Int) (search sort : String)
    (h : Js.filterBy lower searchable searchField search users = some filtered) :
    ∃ info, getUsers lower users p s search sort = some info ∧
      info.results.Perm (filtered.map row) ∧
      ∀ r, r ∈ info.results ↔ ∃ u ∈ filtered, row u = r := by
  have hperm : ((Js.sortBy prop sort filtered).map row).Perm (filtered.map row) :=
    (Js.sortBy_perm prop sort filtered).map row
  refine ⟨Js.listing ((Js.sortBy prop sort filtered).map row) p s, ?_, hperm, ?_⟩
  · simp [getUsers, filteredUsers, h]
  · intro r
    show r ∈ (Js.sortBy prop sort filtered).map row ↔ _
    rw [hperm.mem_iff, List.mem_map]

theorem comparator_email_desc (a b : User) :
    Js.comparator (fun x => prop x "email") (some "desc") a b ≤ 0
      ↔ Js.utf16 b.email ≤ Js.utf16 a.email := by
  have hprop : ∀ x : User, prop x "email" = .str x.email := by
    intro x
    simp [prop]
  unfold Js.comparator
  simp only [hprop, Js.lt, decide_eq_true_eq]
  by_cases h1 : Js.utf16 a.email < Js.utf16 b.email
  · have : ¬ Js.utf16 b.email ≤ Js.utf16 a.email := not_le.mpr h1
    simp [h1, this]
  · have hle : Js.utf16 b.email ≤ Js.utf16 a.email := not_lt.mp h1
    by_cases h2 : Js.utf16 b.email < Js.utf16 a.email
    · simp [h1, h2, hle]
    · simp [h1, h2, hle]

end Users

namespace DigitalBank

theorem getBankAccounts_of_filter (lower : String → String) (db : Db) (filtered : List Account) (p s : Int)
    (search sort : String)
    (h : Js.filterBy lower searchable searchField search db.docs = some filtered) :
    ∃ info, Service.getBankAccounts lower db p s search sort = some info ∧
      info.results.Perm (filtered.map accountRow) ∧
      ∀ r, r ∈ info.results ↔ ∃ a ∈ filtered, accountRow a = r := by
  have hperm : ((Js.sortBy prop sort filtered).map accountRow).Perm
      (filtered.map accountRow) :=
    (Js.sortBy_perm prop sort filtered).map accountRow
  refine ⟨Js.listing ((Js.sortBy prop sort filtered).map accountRow) p s, ?_, hperm, ?_⟩
  · simp [Service.getBankAccounts, Service.filteredAccounts, Repository.getBankAccounts, h]
  · intro r
    show r ∈ (Js.sortBy prop sort filtered).map accountRow ↔ _
    rw [hperm.mem_iff, List.mem_map]

end DigitalBank

namespace Users

/-- C13, refuted as stated: for the expression made of field `name` and key
`a:z`, `getUsers` returns both stored users (their names contain `a`), while
no stored name contains `a:z`. -/
theorem search_key_is_cut_at_colon :
    (getUsers Js.asciiLowerCase twoUsers 1 15 ("name" ++ ":" ++ "a:z") "asc").map
        (fun r => r.results)
      = some [⟨"u1", "ALI", "ali@mail.io"⟩, ⟨"u2", "BEA", "bea@mail.io"⟩] ∧
    twoUsers.filter
      (fun u => Js.includes (Js.asciiLowerCase u.name) (Js.asciiLowerCase "a:z")) = [] := by
  decide

/-- C13, amended. For a search expression `field:key` whose key holds no colon,
and whatever function the built-in `toLowerCase` is (`lower`): with field
`name` or `email` (users) or `ownerName` (accounts) the filter keeps exactly
the records whose field value, lower-cased, contains the lower-cased key, and
`getUsers` / `getBankAccounts` return the rows of exactly those records; with a
colon-free field that is not recognised, every record is kept. -/
theorem search_keeps_matching_records (lower : String → String) (users : List User)
    (db : DigitalBank.Db) (key : String) (hk : ':' ∉ key.data) :
    (Js.filterBy lower searchable searchField ("name" ++ ":" ++ key) users
      = some (users.filter
          (fun u => Js.includes (lower u.name) (lower key)))) ∧
    (Js.filterBy lower searchable searchField ("email" ++ ":" ++ key) users
      = some (users.filter
          (fun u => Js.includes (lower u.email) (lower key)))) ∧
    (Js.filterBy lower DigitalBank.searchable DigitalBank.searchField
        ("ownerName" ++ ":" ++ key) db.docs
      = some (db.docs.filter
          (fun a => Js.includes (lower a.ownerName) (lower key)))) ∧
    (∀ (p s : Int) (sort : String),
      ∃ info, getUsers lower users p s ("name" ++ ":" ++ key) sort = some info ∧
        ∀ r, r ∈ info.results ↔
          ∃ u ∈ users, Js.includes (lower u.name) (lower key) = true ∧
            row u = r) ∧
    (∀ (p s : Int) (sort : String),
      ∃ info, getUsers lower users p s ("email" ++ ":" ++ key) sort = some info ∧
        ∀ r, r ∈ info.results ↔
          ∃ u ∈ users, Js.includes (lower u.email) (lower key) = true ∧
            row u = r) ∧
    (∀ (p s : Int) (sort : String),
      ∃ info, DigitalBank.Service.getBankAccounts lower db p s ("ownerName" ++ ":" ++ key) sort
          = some info ∧
        ∀ r, r ∈ info.results ↔
          ∃ a ∈ db.docs,
            Js.includes (lower a.ownerName) (lower key) = true ∧
            DigitalBank.accountRow a = r) ∧
    (∀ field : String, ':' ∉ field.data → field ≠ "name" → field ≠ "email" →
      Js.filterBy lower searchable searchField (field ++ ":" ++ key) users = some users) ∧
    (∀ field : String, ':' ∉ field.data → field ≠ "ownerName" →
      Js.filterBy lower DigitalBank.searchable DigitalBank.searchField (field ++ ":" ++ key)
        db.docs = some db.docs) := by
  have hkey := Js.takeWhile_no_colon key hk
  have hname : Js.filterBy lower searchable searchField ("name" ++ ":" ++ key) users
      = some (users.filter
          (fun u => Js.includes (lower u.name) (lower key))) := by
    rw [Js.filterBy_expression lower _ _ "name" key users (by decide), hkey]
    simp [searchable, searchField]
  have hemail : Js.filterBy lower searchable searchField ("email" ++ ":" ++ key) users
      = some (users.filter
          (fun u => Js.includes (lower u.email) (lower key))) := by
    rw [Js.filterBy_expression lower _ _ "email" key users (by decide), hkey]
    simp [searchable, searchField]
  have howner : Js.filterBy lower DigitalBank.searchable DigitalBank.searchField
      ("ownerName" ++ ":" ++ key) db.docs
      = some (db.docs.filter
          (fun a => Js.includes (lower a.ownerName) (lower key))) := by
    rw [Js.filterBy_expression lower _ _ "ownerName" key db.docs (by decide), hkey]
    simp [DigitalBank.searchable, DigitalBank.searchField]
  refine ⟨hname, hemail, howner, ?_, ?_, ?_, ?_, ?_⟩
  · intro p s sort
    obtain ⟨info, h1, _, h3⟩ := getUsers_of_filter lower users _ p s _ sort hname
    refine ⟨info, h1, fun r => ?_⟩
    rw [h3]
    simp only [List.mem_filter, and_assoc]
  · intro p s sort
    obtain ⟨info, h1, _, h3⟩ := getUsers_of_filter lower users _ p s _ sort hemail
    refine ⟨info, h1, fun r => ?_⟩
    rw [h3]
    simp only [List.mem_filter, and_assoc]
  · intro p s sort
    obtain ⟨info, h1, _, h3⟩ := DigitalBank.getBankAccounts_of_filter lower db _ p s _ sort howner
    refine ⟨info, h1, fun r => ?_⟩
    rw [h3]
    simp only [List.mem_filter, and_assoc]
  · intro field hf h1 h2
    rw [Js.filterBy_expression lower _ _ field key users hf]
    simp [searchable, h1, h2]
  · intro field hf h1
    rw [Js.filterBy_expression lower _ _ field key db.docs hf]
    simp [DigitalBank.searchable, h1]

/-- C13 amended, at the key `ali` over five users: `ALI` and `Salim` match. -/
theorem search_keeps_matching_records_witness :
    Js.filterBy Js.asciiLowerCase searchable searchField ("name" ++ ":" ++ "ali") fiveUsers
      = some [⟨"u1", "ALI", "ali@mail.io", "h1"⟩, ⟨"u3", "Salim", "sal@mail.io", "h3"⟩] :=
  (search_keeps_matching_records Js.asciiLowerCase fiveUsers DigitalBank.pairDb "ali"
    (by decide)).1.trans (by decide)

/-- C14. With a search whose field is not recognised, `getUsers` with the sort
expression `email:desc` returns the rows of a permutation of the input users,
with the e-mails in non-increasing lexical order (the order of JavaScript's
comparison operators, by UTF-16 code units): every earlier row's e-mail is at
least every later row's, in particular for each adjacent pair. -/
theorem getUsers_email_desc_sorted (lower : String → String) (users : List User) (p s : Int) (search : String)
    (hpass : searchable (Js.firstPart search) = false) :
    ∃ info, getUsers lower users p s search "email:desc" = some info ∧
      info.results.Perm (users.map row) ∧
      info.results.Pairwise (fun a b => Js.utf16 b.email ≤ Js.utf16 a.email) ∧
      info.results.Chain' (fun a b => Js.utf16 b.email ≤ Js.utf16 a.email) := by
  have hfilter : Js.filterBy lower searchable searchField search users = some users := by
    simp [Js.filterBy, hpass]
  obtain ⟨info, h1, h2, _⟩ := getUsers_of_filter lower users users p s search "email:desc" hfilter
  have hres : info.results = (Js.sortBy prop "email:desc" users).map row := by
    have h1' : getUsers lower users p s search "email:desc"
        = some (Js.listing ((Js.sortBy prop "email:desc" users).map row) p s) := by
      simp [getUsers, filteredUsers, hfilter]
    rw [h1] at h1'
    rw [Option.some.inj h1']
    rfl
  have hfirst : Js.firstPart "email:desc" = "email" := by decide
  have hsecond : Js.secondPart "email:desc" = some "desc" := by decide
  have hsorted : (Js.sortBy prop "email:desc" users).Pairwise
      (fun a b => Js.utf16 b.email ≤ Js.utf16 a.email) := by
    unfold Js.sortBy Js.sort
    simp only [hfirst, hsecond]
    haveI : IsTotal User
        (fun a b => Js.comparator (fun x => prop x "email") (some "desc") a b ≤ 0) :=
      ⟨fun a b => by
        simp only [comparator_email_desc]
        exact le_total _ _⟩
    haveI : IsTrans User
        (fun a b => Js.comparator (fun x => prop x "email") (some "desc") a b ≤ 0) :=
      ⟨fun a b c => by
        simp only [comparator_email_desc]
        exact fun hab hbc => le_trans hbc hab⟩
    have hs := List.sorted_insertionSort
      (fun a b => Js.comparator (fun x => prop x "email") (some "desc") a b ≤ 0) users
    exact List.Pairwise.imp (fun {a b} h => (comparator_email_desc a b).mp h) hs
  have hpair : info.results.Pairwise (fun a b => Js.utf16 b.email ≤ Js.utf16 a.email) := by
    rw [hres, List.pairwise_map]
    exact hsorted
  exact ⟨info, h1, h2, hpair, List.Pairwise.chain' hpair⟩

/-- C14, at two users stored in ascending order of e-mail. -/
theorem getUsers_email_desc_sorted_witness :
    ∃ info, getUsers Js.asciiLowerCase twoUsers 1 15 "" "email:desc" = some info ∧
      info.results.Perm (twoUsers.map row) ∧
      info.results.Pairwise (fun a b => Js.utf16 b.email ≤ Js.utf16 a.email) ∧
      info.results.Chain' (fun a b => Js.utf16 b.email ≤ Js.utf16 a.email) :=
  getUsers_email_desc_sorted Js.asciiLowerCase twoUsers 1 15 "" (by decide)

/-- C15. With the sort expression `email` (a field, no direction) `getUsers`
returns the two users in descending order of e-mail, the reverse of what
`email:asc` returns; `getBankAccounts` does the same with `ownerName`.  The
search is empty, so the built-in `toLowerCase` plays no part. -/
theorem sort_without_direction_descends (lower : String → String) :
    (getUsers lower twoUsers 1 15 "" "email").map
        (fun r => r.results.map (fun x => x.email))
      = some ["bea@mail.io", "ali@mail.io"] ∧
    (getUsers lower twoUsers 1 15 "" "email:asc").map
        (fun r => r.results.map (fun x => x.email))
      = some ["ali@mail.io", "bea@mail.io"] ∧
    (DigitalBank.Service.getBankAccounts lower DigitalBank.pairDb 1 15 "" "ownerName").map
        (fun r => r.results.map (fun x => x.owner_name)) = some ["BOB", "ALICE"] ∧
    (DigitalBank.Service.getBankAccounts lower DigitalBank.pairDb 1 15 ""
        "ownerName:asc").map
        (fun r => r.results.map (fun x => x.owner_name)) = some ["ALICE", "BOB"] :=
  ⟨rfl, rfl, rfl, rfl⟩

end Users

namespace DigitalBank

/-- C12, at five accounts with `page_size = 2`: three pages are reported, a
next page on page 1 and none on page 3. -/
theorem pagination_metadata_agrees_witness :
    (∃ info, Service.getBankAccounts Js.asciiLowerCase fiveDb 1 2 "" "asc" = some info ∧
      info.totalPages = ⌈(((fiveDb.docs.length : Nat) : ℚ) / ((2 : Int) : ℚ))⌉ ∧
      (info.hasNextPages = true ↔ (1 : Int) < info.totalPages)) ∧
    (Service.getBankAccounts Js.asciiLowerCase fiveDb 1 2 "" "asc").map
        (fun r => (r.totalPages, r.hasPreviousPages, r.hasNextPages))
      = some (3, false, true) ∧
    (Service.getBankAccounts Js.asciiLowerCase fiveDb 3 2 "" "asc").map
        (fun r => (r.totalPages, r.hasPreviousPages, r.hasNextPages))
      = some (3, true, false) :=
  have h := pagination_metadata_agrees Js.asciiLowerCase fiveDb "" "asc" fiveDb.docs 1 2 (by decide)
    (by decide) (by decide)
  ⟨h.elim fun info hi => ⟨info, hi.1, hi.2.2.1, hi.2.2.2.2.2.1⟩, by decide, by decide⟩

end DigitalBank

namespace Authentication

open DigitalBank (Response ErrorType)

/-- C17. After five rejected attempts for one identifier made one hour apart,
an attempt one minute after the fifth is answered with FORBIDDEN, although a
single failure was recorded in the 30 minutes before it: the counter of
failures never ages. -/
theorem lock_ignores_age_of_failures :
    (login (runLogins emptyAttempts hourlyFailures) "u@mail.io" 14460000 none).1.errorKind
      = some ErrorType.FORBIDDEN ∧
    recordedFailures "u@mail.io" emptyAttempts hourlyFailures
      = [0, 3600000, 7200000, 10800000, 14400000] ∧
    ((recordedFailures "u@mail.io" emptyAttempts hourlyFailures).filter
        (fun t => decide (14460000 - t < 1800000))).length = 1 := by
  decide

end Authentication
